import Mathlib

/-!
Shallow embedding of the i386-emu 32-bit x86 emulator
(src/emulator.rs, src/modrm.rs, src/bios.rs, src/io.rs, src/main.rs).

Modelling conventions:
* Machine integers (`u8`, `u32`, `u64`) are `Nat` values below `2^8` /
  `2^32` / `2^64`.
* Rust's plain `+` / `-` on machine integers is overflow-checked: an
  arithmetic overflow is a program error (a panic under the default
  debug profile), modelled by `none`.
* `wrapping_add` / `wrapping_sub` are arithmetic modulo `2^32` (resp.
  `2^64` for the flag computation).
* `Vec<u8>` indexing is bounds-checked; an out-of-range index (a panic)
  is modelled by `none`.  The stored bytes are below 256 (`u8`), which
  the model realises by reducing each loaded byte `% 256`.
* Casts: `as u8` truncates (`% 256`); `as i8` / `as i32` reinterpret the
  bits as a signed value; `as u32` of a signed value is its two's
  complement representative.
* The process-wide `stdin` / `stdout` streams wired to COM1 are made
  explicit as the `input` / `output` byte lists of the machine state;
  diagnostic `println!` text is not part of the machine state.
-/

def U32 : Nat := 4294967296

def U64 : Nat := 18446744073709551616

/-- Rust `a + b` on `u32`: overflow is a program error (`none`). -/
def checkedAdd32 (a b : Nat) : Option Nat :=
  if a + b < U32 then some (a + b) else none

/-- Rust `a - b` on an unsigned integer: underflow is a program error. -/
def checkedSub (a b : Nat) : Option Nat :=
  if b ≤ a then some (a - b) else none

/-- Rust `b as i8` for a byte `b < 256`. -/
def u8AsI8 (b : Nat) : Int :=
  if b < 128 then (b : Int) else (b : Int) - 256

/-- Rust `v as i32` for `v < 2^32`. -/
def u32AsI32 (v : Nat) : Int :=
  if v < 2147483648 then (v : Int) else (v : Int) - (U32 : Int)

/-- Rust `d as u32` for a signed value: two's complement representative. -/
def intAsU32 (d : Int) : Nat :=
  (d % (U32 : Int)).toNat

-- EFLAGS bit positions (src/emulator.rs lines 9-12).
def CARRY_FLAG : Nat := 1

def ZERO_FLAG : Nat := 2

def SIGN_FLAG : Nat := 4

def OVERFLOW_FLAG : Nat := 8

/-- The 8-bit register names (src/emulator.rs `enum Register8`). -/
inductive Register8 where
  | Al | Cl | Dl | Bl | Ah | Ch | Dh | Bh
deriving DecidableEq

/-- `Register8::from_usize` (src/emulator.rs lines 37-49). -/
def Register8.from_usize (value : Nat) : Option Register8 :=
  match value with
  | 0 => some .Al
  | 1 => some .Cl
  | 2 => some .Dl
  | 3 => some .Bl
  | 4 => some .Ah
  | 5 => some .Ch
  | 6 => some .Dh
  | 7 => some .Bh
  | _ => none

/-- The discriminant of `Register8` (`reg as usize`). -/
def Register8.toUsize : Register8 → Nat
  | .Al => 0 | .Cl => 1 | .Dl => 2 | .Bl => 3
  | .Ah => 4 | .Ch => 5 | .Dh => 6 | .Bh => 7

/-- Whether the name addresses bits 8..15 (AH/CH/DH/BH). -/
def Register8.isHigh : Register8 → Bool
  | .Al | .Cl | .Dl | .Bl => false
  | .Ah | .Ch | .Dh | .Bh => true

/-- Index of the enclosing 32-bit register. -/
def Register8.encIdx (r : Register8) : Fin 8 :=
  match r with
  | .Al => 0 | .Cl => 1 | .Dl => 2 | .Bl => 3
  | .Ah => 0 | .Ch => 1 | .Dh => 2 | .Bh => 3

/-- Machine state (`struct Emulator`), with the COM1 streams made
explicit.  `memory` is the byte array contents, `memSize` its length. -/
structure Emulator where
  registers : Fin 8 → Nat
  eflags : Nat
  memory : Nat → Nat
  memSize : Nat
  eip : Nat
  input : List Nat
  output : List Nat

/-- Pointwise register-file update (`self.registers[index] = value`). -/
def setReg (regs : Fin 8 → Nat) (i : Fin 8) (v : Nat) : Fin 8 → Nat :=
  fun j => if j = i then v else regs j

/-- `get_register32` (bounds-checked array index). -/
def Emulator.get_register32 (e : Emulator) (index : Nat) : Option Nat :=
  if h : index < 8 then some (e.registers ⟨index, h⟩) else none

/-- `set_register32` (bounds-checked array index). -/
def Emulator.set_register32 (e : Emulator) (index : Nat) (value : Nat) :
    Option Emulator :=
  if h : index < 8 then
    some { e with registers := setReg e.registers ⟨index, h⟩ value }
  else none

/-- `get_register8` (src/emulator.rs lines 133-144): the `as u8` casts
truncate to the low byte. -/
def Emulator.get_register8 (e : Emulator) (reg : Register8) : Nat :=
  match reg with
  | .Al => e.registers 0 % 256
  | .Cl => e.registers 1 % 256
  | .Dl => e.registers 2 % 256
  | .Bl => e.registers 3 % 256
  | .Ah => (e.registers 0 >>> 8) % 256
  | .Ch => (e.registers 1 >>> 8) % 256
  | .Dh => (e.registers 2 >>> 8) % 256
  | .Bh => (e.registers 3 >>> 8) % 256

/-- `set_register8` (src/emulator.rs lines 150-163): mask the addressed
byte of the enclosing 32-bit register and or in the new byte. -/
def Emulator.set_register8 (e : Emulator) (reg : Register8) (value : Nat) :
    Emulator :=
  match reg with
  | .Al | .Cl | .Dl | .Bl =>
    let index := reg.encIdx
    let r := e.registers index &&& 0xffffff00
    { e with registers := setReg e.registers index (r ||| value) }
  | .Ah | .Ch | .Dh | .Bh =>
    let index := reg.encIdx
    let r := e.registers index &&& 0xffff00ff
    { e with registers := setReg e.registers index (r ||| (value <<< 8)) }

/-- `get_memory8`: bounds-checked byte load; the stored `u8` is `% 256`. -/
def Emulator.get_memory8 (e : Emulator) (address : Nat) : Option Nat :=
  if address < e.memSize then some (e.memory address % 256) else none

/-- `set_memory8`: bounds-checked byte store of a `u8` value. -/
def Emulator.set_memory8 (e : Emulator) (address : Nat) (value : Nat) :
    Option Emulator :=
  if address < e.memSize then
    some { e with memory := fun x => if x = address then value % 256 else e.memory x }
  else none

/-- `get_memory32`: four little-endian byte loads at `address + i`; the
`address + i` additions are unchecked `u32` adds. -/
def Emulator.get_memory32 (e : Emulator) (address : Nat) : Option Nat := do
  let b0 ← e.get_memory8 address
  let a1 ← checkedAdd32 address 1
  let b1 ← e.get_memory8 a1
  let a2 ← checkedAdd32 address 2
  let b2 ← e.get_memory8 a2
  let a3 ← checkedAdd32 address 3
  let b3 ← e.get_memory8 a3
  pure (b0 ||| (b1 <<< 8) ||| (b2 <<< 16) ||| (b3 <<< 24))

/-- `set_memory32`: four little-endian byte stores of `(value >> 8*i) & 0xff`. -/
def Emulator.set_memory32 (e : Emulator) (address : Nat) (value : Nat) :
    Option Emulator := do
  let e0 ← e.set_memory8 address (value &&& 0xff)
  let a1 ← checkedAdd32 address 1
  let e1 ← e0.set_memory8 a1 ((value >>> 8) &&& 0xff)
  let a2 ← checkedAdd32 address 2
  let e2 ← e1.set_memory8 a2 ((value >>> 16) &&& 0xff)
  let a3 ← checkedAdd32 address 3
  e2.set_memory8 a3 ((value >>> 24) &&& 0xff)

/-- `get_code8`: `memory[eip + index]` (the index arithmetic is in
`usize`, which cannot overflow here; the bounds check remains). -/
def Emulator.get_code8 (e : Emulator) (index : Nat) : Option Nat :=
  if e.eip + index < e.memSize then some (e.memory (e.eip + index) % 256) else none

/-- `get_sign_code8`: the fetched byte reinterpreted as `i8`. -/
def Emulator.get_sign_code8 (e : Emulator) (index : Nat) : Option Int :=
  (e.get_code8 index).map u8AsI8

/-- `get_code32`: four little-endian code bytes. -/
def Emulator.get_code32 (e : Emulator) (index : Nat) : Option Nat := do
  let b0 ← e.get_code8 index
  let b1 ← e.get_code8 (index + 1)
  let b2 ← e.get_code8 (index + 2)
  let b3 ← e.get_code8 (index + 3)
  pure (b0 ||| (b1 <<< 8) ||| (b2 <<< 16) ||| (b3 <<< 24))

/-- `get_sign_code32`: the 32-bit immediate reinterpreted as `i32`. -/
def Emulator.get_sign_code32 (e : Emulator) (index : Nat) : Option Int :=
  (e.get_code32 index).map u32AsI32

/-- `self.eip += n` (an unchecked `u32` add). -/
def Emulator.addEip (e : Emulator) (n : Nat) : Option Emulator :=
  (checkedAdd32 e.eip n).map fun v => { e with eip := v }

/-- `push32` (src/emulator.rs lines 191-195): `ESP -= 4` (unchecked),
then store the value at the new ESP. -/
def Emulator.push32 (e : Emulator) (value : Nat) : Option Emulator := do
  let esp ← e.get_register32 4
  let address ← checkedSub esp 4
  let e1 ← e.set_register32 4 address
  e1.set_memory32 address value

/-- `pop32` (src/emulator.rs lines 197-202): load at ESP, then
`ESP += 4` (unchecked add). -/
def Emulator.pop32 (e : Emulator) : Option (Nat × Emulator) := do
  let address ← e.get_register32 4
  let ret ← e.get_memory32 address
  let a4 ← checkedAdd32 address 4
  let e1 ← e.set_register32 4 a4
  pure (ret, e1)

/-- `set_carry` (bit 0 of EFLAGS; `!CARRY_FLAG` on `u32` is `0xFFFFFFFE`). -/
def Emulator.set_carry (e : Emulator) (is : Bool) : Emulator :=
  if is then { e with eflags := e.eflags ||| CARRY_FLAG }
  else { e with eflags := e.eflags &&& 0xFFFFFFFE }

/-- `set_zero` (bit 1 of EFLAGS). -/
def Emulator.set_zero (e : Emulator) (is : Bool) : Emulator :=
  if is then { e with eflags := e.eflags ||| ZERO_FLAG }
  else { e with eflags := e.eflags &&& 0xFFFFFFFD }

/-- `set_sign` (bit 2 of EFLAGS). -/
def Emulator.set_sign (e : Emulator) (is : Bool) : Emulator :=
  if is then { e with eflags := e.eflags ||| SIGN_FLAG }
  else { e with eflags := e.eflags &&& 0xFFFFFFFB }

/-- `set_overflow` (bit 3 of EFLAGS). -/
def Emulator.set_overflow (e : Emulator) (is : Bool) : Emulator :=
  if is then { e with eflags := e.eflags ||| OVERFLOW_FLAG }
  else { e with eflags := e.eflags &&& 0xFFFFFFF7 }

def Emulator.is_carry (e : Emulator) : Bool := e.eflags &&& CARRY_FLAG != 0

def Emulator.is_zero (e : Emulator) : Bool := e.eflags &&& ZERO_FLAG != 0

def Emulator.is_sign (e : Emulator) : Bool := e.eflags &&& SIGN_FLAG != 0

def Emulator.is_overflow (e : Emulator) : Bool := e.eflags &&& OVERFLOW_FLAG != 0

/-- `update_eflags_sub` (src/emulator.rs lines 252-261). -/
def Emulator.update_eflags_sub (e : Emulator) (v1 v2 : Nat) (result : Nat) :
    Emulator :=
  let sign1 := v1 >>> 31
  let sign2 := v2 >>> 31
  let signr := (result >>> 31) &&& 1
  let e1 := e.set_carry ((result >>> 32) != 0)
  let e2 := e1.set_zero ((result &&& 0xFFFFFFFF) == 0)
  let e3 := e2.set_sign (signr != 0)
  e3.set_overflow ((sign1 != sign2) && (sign1 != signr))

/-- The decoded ModR/M byte (src/modrm.rs `struct ModRM`). -/
structure ModRM where
  mod_val : Nat
  opecode : Nat
  rm : Nat
  sib : Option Nat
  disp8 : Option Int
  disp32 : Option Int

/-- `parse_modrm` (src/emulator.rs lines 277-318): split the byte at EIP
into `mod`/`reg`/`rm`, advance EIP, then capture the optional SIB byte
and displacement. -/
def Emulator.parse_modrm (e : Emulator) : Option (ModRM × Emulator) := do
  let code ← e.get_code8 0
  let mod_val := (code &&& 0xC0) >>> 6
  let opecode := (code &&& 0x38) >>> 3
  let rm := code &&& 0x07
  let e1 ← e.addEip 1
  let (sib, e2) ←
    if mod_val ≠ 3 ∧ rm = 4 then do
      let s ← e1.get_code8 0
      let e2 ← e1.addEip 1
      pure ((some s : Option Nat), e2)
    else pure (none, e1)
  let (disp8, disp32, e3) ←
    match mod_val with
    | 0 =>
      if rm = 5 then do
        let d ← e2.get_sign_code32 0
        let e3 ← e2.addEip 4
        pure ((none : Option Int), (some d : Option Int), e3)
      else pure (none, none, e2)
    | 1 => do
      let d ← e2.get_sign_code8 0
      let e3 ← e2.addEip 1
      pure (some d, none, e3)
    | 2 => do
      let d ← e2.get_sign_code32 0
      let e3 ← e2.addEip 4
      pure (none, some d, e3)
    | _ => pure (none, none, e2)
  pure (⟨mod_val, opecode, rm, sib, disp8, disp32⟩, e3)

/-- `calc_memory_address` (src/modrm.rs lines 25-51).  The `panic!` and
`expect` branches (SIB addressing, register-direct mode, and a missing
displacement) are `none`. -/
def ModRM.calc_memory_address (m : ModRM) (e : Emulator) : Option Nat :=
  match m.mod_val with
  | 0 =>
    match m.rm with
    | 4 => none
    | 5 => m.disp32.map intAsU32
    | _ => e.get_register32 m.rm
  | 1 =>
    if m.rm = 4 then none
    else do
      let d ← m.disp8
      let r ← e.get_register32 m.rm
      pure ((r + intAsU32 d) % U32)
  | 2 =>
    if m.rm = 4 then none
    else do
      let d ← m.disp32
      let r ← e.get_register32 m.rm
      pure ((r + intAsU32 d) % U32)
  | _ => none

/-- `ModRM::set_rm8`. -/
def ModRM.set_rm8 (m : ModRM) (e : Emulator) (value : Nat) : Option Emulator :=
  if m.mod_val = 3 then
    match Register8.from_usize m.rm with
    | some reg => some (e.set_register8 reg value)
    | none => none
  else do
    let address ← m.calc_memory_address e
    e.set_memory8 address value

/-- `ModRM::set_rm32`. -/
def ModRM.set_rm32 (m : ModRM) (e : Emulator) (value : Nat) : Option Emulator :=
  if m.mod_val = 3 then e.set_register32 m.rm value
  else do
    let address ← m.calc_memory_address e
    e.set_memory32 address value

/-- `ModRM::get_rm8`. -/
def ModRM.get_rm8 (m : ModRM) (e : Emulator) : Option Nat :=
  if m.mod_val = 3 then
    match Register8.from_usize m.rm with
    | some reg => some (e.get_register8 reg)
    | none => none
  else do
    let address ← m.calc_memory_address e
    e.get_memory8 address

/-- `ModRM::get_rm32`. -/
def ModRM.get_rm32 (m : ModRM) (e : Emulator) : Option Nat :=
  if m.mod_val = 3 then e.get_register32 m.rm
  else do
    let address ← m.calc_memory_address e
    e.get_memory32 address

/-- `ModRM::set_r8`. -/
def ModRM.set_r8 (m : ModRM) (e : Emulator) (value : Nat) : Option Emulator :=
  match Register8.from_usize m.opecode with
  | some reg => some (e.set_register8 reg value)
  | none => none

/-- `ModRM::set_r32`. -/
def ModRM.set_r32 (m : ModRM) (e : Emulator) (value : Nat) : Option Emulator :=
  e.set_register32 m.opecode value

/-- `ModRM::get_r8`. -/
def ModRM.get_r8 (m : ModRM) (e : Emulator) : Option Nat :=
  match Register8.from_usize m.opecode with
  | some reg => some (e.get_register8 reg)
  | none => none

/-- `ModRM::get_r32`. -/
def ModRM.get_r32 (m : ModRM) (e : Emulator) : Option Nat :=
  e.get_register32 m.opecode

/-- `io_in8` (src/io.rs): COM1 reads one byte from standard input (0 at
end of input); every other port reads 0. -/
def ioIn8 (e : Emulator) (address : Nat) : Nat × Emulator :=
  if address = 0x03f8 then
    match e.input with
    | [] => (0, e)
    | b :: rest => (b % 256, { e with input := rest })
  else (0, e)

/-- `io_out8` (src/io.rs): COM1 writes one byte to standard output;
every other port is a silent no-op. -/
def ioOut8 (e : Emulator) (address : Nat) (value : Nat) : Emulator :=
  if address = 0x03f8 then { e with output := e.output ++ [value % 256] } else e

/-- `BIOS_TO_TERMINAL` (src/bios.rs). -/
def BIOS_TO_TERMINAL : Fin 8 → Nat
  | 0 => 30 | 1 => 34 | 2 => 32 | 3 => 36
  | 4 => 31 | 5 => 35 | 6 => 33 | 7 => 37

/-- Decimal digits of a number as a byte list (how `format!` renders a
`{}` argument). -/
def decBytes (n : Nat) : List Nat :=
  (Nat.repr n).data.map Char.toNat

/-- UTF-8 encoding of a Unicode scalar below 0x800 (a `u8 as char`
pushed into a `String`). -/
def utf8Bytes (c : Nat) : List Nat :=
  if c < 128 then [c] else [192 + c / 64, 128 + c % 64]

/-- `bios_video_teletype` (src/bios.rs): emit the SGR-wrapped character
`"\x1b[{bright};{color}m{ch}\x1b[0m"` on COM1. -/
def Emulator.bios_video_teletype (e : Emulator) : Emulator :=
  let color := e.get_register8 .Bl &&& 0x0f
  let ch := e.get_register8 .Al
  let terminal_color := BIOS_TO_TERMINAL ⟨color &&& 0x07, Nat.lt_succ_of_le Nat.and_le_right⟩
  let bright := if color &&& 0x08 ≠ 0 then 1 else 0
  let buf := [27, 91] ++ decBytes bright ++ [59] ++ decBytes terminal_color
      ++ [109] ++ utf8Bytes ch ++ [27, 91, 48, 109]
  buf.foldl (fun acc b => ioOut8 acc 0x03f8 b) e

/-- `bios_video` (src/bios.rs): dispatch on AH; unknown functions print
a diagnostic and leave the machine unchanged. -/
def Emulator.bios_video (e : Emulator) : Emulator :=
  match e.get_register8 .Ah with
  | 0x0e => e.bios_video_teletype
  | _ => e

/-- `mov_r8_imm8` (0xB0..0xB7).  The `- 0xB0` is an unchecked `u8`
subtraction; an invalid index prints a diagnostic and changes nothing. -/
def Emulator.mov_r8_imm8 (e : Emulator) : Option Emulator := do
  let code ← e.get_code8 0
  let idx ← checkedSub code 0xB0
  match Register8.from_usize idx with
  | some reg => do
    let value ← e.get_code8 1
    (e.set_register8 reg value).addEip 2
  | none => pure e

/-- `mov_r32_imm32` (0xB8..0xBF). -/
def Emulator.mov_r32_imm32 (e : Emulator) : Option Emulator := do
  let code ← e.get_code8 0
  let reg ← checkedSub code 0xB8
  let value ← e.get_code32 1
  let e1 ← e.set_register32 reg value
  e1.addEip 5

/-- `mov_r8_rm8` (0x8A). -/
def Emulator.mov_r8_rm8 (e : Emulator) : Option Emulator := do
  let e1 ← e.addEip 1
  let (modrm, e2) ← e1.parse_modrm
  let rm8 ← modrm.get_rm8 e2
  modrm.set_r8 e2 rm8

/-- `mov_r32_rm32` (0x8B). -/
def Emulator.mov_r32_rm32 (e : Emulator) : Option Emulator := do
  let e1 ← e.addEip 1
  let (modrm, e2) ← e1.parse_modrm
  let rm32 ← modrm.get_rm32 e2
  modrm.set_r32 e2 rm32

/-- `add_rm32_r32` (0x01, src/emulator.rs lines 464-470): the source
stores `rm32 + r32` with an unchecked `u32` add. -/
def Emulator.add_rm32_r32 (e : Emulator) : Option Emulator := do
  let e1 ← e.addEip 1
  let (modrm, e2) ← e1.parse_modrm
  let r32 ← modrm.get_r32 e2
  let rm32 ← modrm.get_rm32 e2
  let sum ← checkedAdd32 rm32 r32
  modrm.set_rm32 e2 sum

/-- `mov_rm8_r8` (0x88). -/
def Emulator.mov_rm8_r8 (e : Emulator) : Option Emulator := do
  let e1 ← e.addEip 1
  let (modrm, e2) ← e1.parse_modrm
  let r8 ← modrm.get_r8 e2
  modrm.set_rm8 e2 r8

/-- `mov_rm32_r32` (0x89). -/
def Emulator.mov_rm32_r32 (e : Emulator) : Option Emulator := do
  let e1 ← e.addEip 1
  let (modrm, e2) ← e1.parse_modrm
  let r32 ← modrm.get_r32 e2
  modrm.set_rm32 e2 r32

/-- `inc_r32` (0x40..0x47, src/emulator.rs lines 486-491): the source
computes `register + 1` with an unchecked `u32` add. -/
def Emulator.inc_r32 (e : Emulator) : Option Emulator := do
  let code ← e.get_code8 0
  let reg ← checkedSub code 0x40
  let old ← e.get_register32 reg
  let value ← checkedAdd32 old 1
  let e1 ← e.set_register32 reg value
  e1.addEip 1

/-- `push_r32` (0x50..0x57). -/
def Emulator.push_r32 (e : Emulator) : Option Emulator := do
  let code ← e.get_code8 0
  let reg ← checkedSub code 0x50
  let value ← e.get_register32 reg
  let e1 ← e.push32 value
  e1.addEip 1

/-- `pop_r32` (0x58..0x5F). -/
def Emulator.pop_r32 (e : Emulator) : Option Emulator := do
  let code ← e.get_code8 0
  let reg ← checkedSub code 0x58
  let (value, e1) ← e.pop32
  let e2 ← e1.set_register32 reg value
  e2.addEip 1

/-- `push_imm32` (0x68). -/
def Emulator.push_imm32 (e : Emulator) : Option Emulator := do
  let value ← e.get_code32 1
  let e1 ← e.push32 value
  e1.addEip 5

/-- `push_imm8` (0x6A): the byte is zero-extended. -/
def Emulator.push_imm8 (e : Emulator) : Option Emulator := do
  let value ← e.get_code8 1
  let e1 ← e.push32 value
  e1.addEip 2

/-- `add_rm32_imm8` (0x83 /0): `rm32.wrapping_add(sx(imm8))`, no flag
update. -/
def Emulator.add_rm32_imm8 (e : Emulator) (modrm : ModRM) : Option Emulator := do
  let rm32 ← modrm.get_rm32 e
  let d ← e.get_sign_code8 0
  let imm8 := intAsU32 d
  let e1 ← e.addEip 1
  modrm.set_rm32 e1 ((rm32 + imm8) % U32)

/-- `cmp_rm32_imm8` (0x83 /7): 64-bit wrapping difference, flag update
only. -/
def Emulator.cmp_rm32_imm8 (e : Emulator) (modrm : ModRM) : Option Emulator := do
  let rm32 ← modrm.get_rm32 e
  let d ← e.get_sign_code8 0
  let imm8 := intAsU32 d
  let e1 ← e.addEip 1
  let result := (rm32 + U64 - imm8) % U64
  pure (e1.update_eflags_sub rm32 imm8 result)

/-- `sub_rm32_imm8` (0x83 /5): store the wrapping difference, then
update the flags from the 64-bit result. -/
def Emulator.sub_rm32_imm8 (e : Emulator) (modrm : ModRM) : Option Emulator := do
  let rm32 ← modrm.get_rm32 e
  let d ← e.get_sign_code8 0
  let imm8 := intAsU32 d
  let e1 ← e.addEip 1
  let result := (rm32 + U64 - imm8) % U64
  let e2 ← modrm.set_rm32 e1 ((rm32 + U32 - imm8) % U32)
  pure (e2.update_eflags_sub rm32 imm8 result)

/-- `code_83`: group dispatch on the ModR/M `reg` field; an unlisted
sub-opcode exits the process. -/
def Emulator.code_83 (e : Emulator) : Option Emulator := do
  let e1 ← e.addEip 1
  let (modrm, e2) ← e1.parse_modrm
  match modrm.opecode with
  | 0 => e2.add_rm32_imm8 modrm
  | 5 => e2.sub_rm32_imm8 modrm
  | 7 => e2.cmp_rm32_imm8 modrm
  | _ => none

/-- `mov_rm32_imm32` (0xC7). -/
def Emulator.mov_rm32_imm32 (e : Emulator) : Option Emulator := do
  let e1 ← e.addEip 1
  let (modrm, e2) ← e1.parse_modrm
  let value ← e2.get_code32 0
  let e3 ← e2.addEip 4
  modrm.set_rm32 e3 value

/-- `in_al_dx` (0xEC). -/
def Emulator.in_al_dx (e : Emulator) : Option Emulator := do
  let dx ← e.get_register32 2
  let address := dx &&& 0xffff
  let (value, e1) := ioIn8 e address
  (e1.set_register8 .Al value).addEip 1

/-- `out_dx_al` (0xEE). -/
def Emulator.out_dx_al (e : Emulator) : Option Emulator := do
  let dx ← e.get_register32 2
  let address := dx &&& 0xffff
  let value := e.get_register8 .Al
  (ioOut8 e address value).addEip 1

/-- `inc_rm32` (0xFF /0): `wrapping_add(1)`, no flag update. -/
def Emulator.inc_rm32 (e : Emulator) (modrm : ModRM) : Option Emulator := do
  let value ← modrm.get_rm32 e
  modrm.set_rm32 e ((value + 1) % U32)

/-- `code_ff`: group dispatch; only `/0` is implemented. -/
def Emulator.code_ff (e : Emulator) : Option Emulator := do
  let e1 ← e.addEip 1
  let (modrm, e2) ← e1.parse_modrm
  match modrm.opecode with
  | 0 => e2.inc_rm32 modrm
  | _ => none

/-- `call_rel32` (0xE8): push `EIP + 5` (unchecked add), then
`EIP := EIP.wrapping_add(diff as u32 + 5)` where the inner `+ 5` is an
unchecked `u32` add. -/
def Emulator.call_rel32 (e : Emulator) : Option Emulator := do
  let diff ← e.get_sign_code32 1
  let ret ← checkedAdd32 e.eip 5
  let e1 ← e.push32 ret
  let t ← checkedAdd32 (intAsU32 diff) 5
  pure { e1 with eip := (e1.eip + t) % U32 }

/-- `ret` (0xC3). -/
def Emulator.ret (e : Emulator) : Option Emulator := do
  let (value, e1) ← e.pop32
  pure { e1 with eip := value }

/-- `leave` (0xC9, src/emulator.rs lines 606-612): the source reads EBP,
pops at the CURRENT ESP, then sets ESP := old EBP and EBP := popped. -/
def Emulator.leave (e : Emulator) : Option Emulator := do
  let ebp ← e.get_register32 5
  let (popped_value, e1) ← e.pop32
  let e2 ← e1.set_register32 4 ebp
  let e3 ← e2.set_register32 5 popped_value
  e3.addEip 1

/-- `short_jump` (0xEB): `EIP.wrapping_add(diff as u32 + 2)` with an
unchecked inner `+ 2`. -/
def Emulator.short_jump (e : Emulator) : Option Emulator := do
  let diff ← e.get_sign_code8 1
  let t ← checkedAdd32 (intAsU32 diff) 2
  pure { e with eip := (e.eip + t) % U32 }

/-- `near_jump` (0xE9): `EIP.wrapping_add(diff as u32 + 5)` with an
unchecked inner `+ 5`. -/
def Emulator.near_jump (e : Emulator) : Option Emulator := do
  let diff ← e.get_sign_code32 1
  let t ← checkedAdd32 (intAsU32 diff) 5
  pure { e with eip := (e.eip + t) % U32 }

/-- `cmp_al_imm8` (0x3C). -/
def Emulator.cmp_al_imm8 (e : Emulator) : Option Emulator := do
  let value ← e.get_code8 1
  let al := e.get_register8 .Al
  let result := (al + U64 - value) % U64
  (e.update_eflags_sub al value result).addEip 2

/-- `cmp_eax_imm32` (0x3D). -/
def Emulator.cmp_eax_imm32 (e : Emulator) : Option Emulator := do
  let value ← e.get_code32 1
  let eax ← e.get_register32 0
  let result := (eax + U64 - value) % U64
  (e.update_eflags_sub eax value result).addEip 5

/-- `cmp_r32_rm32` (0x3B). -/
def Emulator.cmp_r32_rm32 (e : Emulator) : Option Emulator := do
  let e1 ← e.addEip 1
  let (modrm, e2) ← e1.parse_modrm
  let r32 ← modrm.get_r32 e2
  let rm32 ← modrm.get_rm32 e2
  let result := (r32 + U64 - rm32) % U64
  pure (e2.update_eflags_sub r32 rm32 result)

/-- `conditional_jump` (src/emulator.rs lines 649-656): displacement is
read only when the condition holds; the `diff as u32 + 2` is an
unchecked `u32` add. -/
def Emulator.conditional_jump (e : Emulator) (condition : Bool) :
    Option Emulator := do
  let diff ← if condition then e.get_sign_code8 1 else pure (0 : Int)
  let t ← checkedAdd32 (intAsU32 diff) 2
  pure { e with eip := (e.eip + t) % U32 }

def Emulator.jc (e : Emulator) : Option Emulator := e.conditional_jump e.is_carry

def Emulator.jnc (e : Emulator) : Option Emulator := e.conditional_jump (!e.is_carry)

def Emulator.jz (e : Emulator) : Option Emulator := e.conditional_jump e.is_zero

def Emulator.jnz (e : Emulator) : Option Emulator := e.conditional_jump (!e.is_zero)

def Emulator.js (e : Emulator) : Option Emulator := e.conditional_jump e.is_sign

def Emulator.jns (e : Emulator) : Option Emulator := e.conditional_jump (!e.is_sign)

def Emulator.jo (e : Emulator) : Option Emulator := e.conditional_jump e.is_overflow

def Emulator.jno (e : Emulator) : Option Emulator := e.conditional_jump (!e.is_overflow)

/-- `jl` (0x7C, src/emulator.rs lines 690-697): taken when SF ≠ OF. -/
def Emulator.jl (e : Emulator) : Option Emulator := do
  let diff ← if e.is_sign ≠ e.is_overflow then e.get_sign_code8 1 else pure (0 : Int)
  let t ← checkedAdd32 (intAsU32 diff) 2
  pure { e with eip := (e.eip + t) % U32 }

/-- `jle` (0x7E): taken when ZF = 1 or SF ≠ OF. -/
def Emulator.jle (e : Emulator) : Option Emulator := do
  let diff ← if e.is_zero || (e.is_sign ≠ e.is_overflow) then e.get_sign_code8 1
    else pure (0 : Int)
  let t ← checkedAdd32 (intAsU32 diff) 2
  pure { e with eip := (e.eip + t) % U32 }

/-- `swi` (0xCD): dispatch on the interrupt number; only `INT 0x10` does
anything, every other number prints a diagnostic. -/
def Emulator.swi (e : Emulator) : Option Emulator := do
  let int_index ← e.get_code8 1
  let e1 ← e.addEip 2
  match int_index with
  | 0x10 => pure e1.bios_video
  | _ => pure e1

/-- The instruction mnemonics (src/emulator.rs `enum Instruction`). -/
inductive Instruction where
  | MovR8Imm8 | MovR32Imm32 | MovR8Rm8 | MovR32Rm32 | AddRm32R32
  | MovRm8R8 | MovRm32R32 | IncR32 | PushR32 | PopR32
  | PushImm32 | PushImm8 | Code83 | MovRm32Imm32 | InAlDx
  | OutDxAl | CodeFf | CallRel32 | Ret | Leave
  | ShortJump | NearJump | CmpAlImm8 | CmpEaxImm32 | CmpR32Rm32
  | Jc | Jnc | Jz | Jnz | Js | Jns | Jo | Jno | Jl | Jle | Swi
deriving DecidableEq

/-- `execute_instruction` (src/emulator.rs lines 320-431). -/
def Emulator.execute_instruction (e : Emulator) (instruction : Instruction) :
    Option Emulator :=
  match instruction with
  | .MovR8Imm8 => e.mov_r8_imm8
  | .MovR32Imm32 => e.mov_r32_imm32
  | .MovR8Rm8 => e.mov_r8_rm8
  | .MovR32Rm32 => e.mov_r32_rm32
  | .AddRm32R32 => e.add_rm32_r32
  | .MovRm8R8 => e.mov_rm8_r8
  | .MovRm32R32 => e.mov_rm32_r32
  | .IncR32 => e.inc_r32
  | .PushR32 => e.push_r32
  | .PopR32 => e.pop_r32
  | .PushImm32 => e.push_imm32
  | .PushImm8 => e.push_imm8
  | .Code83 => e.code_83
  | .MovRm32Imm32 => e.mov_rm32_imm32
  | .InAlDx => e.in_al_dx
  | .OutDxAl => e.out_dx_al
  | .CodeFf => e.code_ff
  | .CallRel32 => e.call_rel32
  | .Ret => e.ret
  | .Leave => e.leave
  | .ShortJump => e.short_jump
  | .NearJump => e.near_jump
  | .CmpAlImm8 => e.cmp_al_imm8
  | .CmpEaxImm32 => e.cmp_eax_imm32
  | .CmpR32Rm32 => e.cmp_r32_rm32
  | .Jc => e.jc
  | .Jnc => e.jnc
  | .Jz => e.jz
  | .Jnz => e.jnz
  | .Js => e.js
  | .Jns => e.jns
  | .Jo => e.jo
  | .Jno => e.jno
  | .Jl => e.jl
  | .Jle => e.jle
  | .Swi => e.swi

/-- `init_instructions` (src/emulator.rs lines 718-776) as the opcode
table it builds. -/
def instructionTable (code : Nat) : Option Instruction :=
  if code = 0x01 then some .AddRm32R32
  else if code = 0x3B then some .CmpR32Rm32
  else if code = 0x3C then some .CmpAlImm8
  else if code = 0x3D then some .CmpEaxImm32
  else if 0x40 ≤ code ∧ code < 0x48 then some .IncR32
  else if 0x50 ≤ code ∧ code < 0x58 then some .PushR32
  else if 0x58 ≤ code ∧ code < 0x60 then some .PopR32
  else if code = 0x68 then some .PushImm32
  else if code = 0x6A then some .PushImm8
  else if code = 0x70 then some .Jo
  else if code = 0x71 then some .Jno
  else if code = 0x72 then some .Jc
  else if code = 0x73 then some .Jnc
  else if code = 0x74 then some .Jz
  else if code = 0x75 then some .Jnz
  else if code = 0x78 then some .Js
  else if code = 0x79 then some .Jns
  else if code = 0x7C then some .Jl
  else if code = 0x7E then some .Jle
  else if code = 0x83 then some .Code83
  else if code = 0x88 then some .MovRm8R8
  else if code = 0x89 then some .MovRm32R32
  else if code = 0x8A then some .MovR8Rm8
  else if code = 0x8B then some .MovR32Rm32
  else if 0xB0 ≤ code ∧ code < 0xB8 then some .MovR8Imm8
  else if 0xB8 ≤ code ∧ code < 0xC0 then some .MovR32Imm32
  else if code = 0xC3 then some .Ret
  else if code = 0xC7 then some .MovRm32Imm32
  else if code = 0xC9 then some .Leave
  else if code = 0xCD then some .Swi
  else if code = 0xE8 then some .CallRel32
  else if code = 0xE9 then some .NearJump
  else if code = 0xEB then some .ShortJump
  else if code = 0xEC then some .InAlDx
  else if code = 0xEE then some .OutDxAl
  else if code = 0xFF then some .CodeFf
  else none

/-- `MEMORY_SIZE` (src/main.rs). -/
def MEMORY_SIZE : Nat := 1024 * 1024

/-- One hexadecimal digit, uppercase (`{:X}` formatting). -/
def hexDigit (n : Nat) : Char :=
  if n < 10 then Char.ofNat (48 + n) else Char.ofNat (55 + n)

/-- Uppercase hexadecimal digits of `n` (`{:X}` formatting); the first
argument is structural fuel (`n` itself is always enough). -/
def hexUpperGo : Nat → Nat → List Char → List Char
  | 0, n, acc => hexDigit (n % 16) :: acc
  | fuel + 1, n, acc =>
    if n < 16 then hexDigit n :: acc
    else hexUpperGo fuel (n / 16) (hexDigit (n % 16) :: acc)

/-- `{:0wX}` formatting: uppercase hex, zero-padded to `w` digits. -/
def hexPad (w n : Nat) : String :=
  let ds := hexUpperGo n n []
  ⟨List.replicate (w - ds.length) '0' ++ ds⟩

/-- The per-step trace message printed by the main loop (src/main.rs
line 37): `println!("EIP = {}, Code = 0x{:02X}\n", emu.eip, code)` — the
EIP in decimal, the opcode byte as `0x` plus two uppercase hex digits,
and a blank line (the literal `\n` plus the newline `println!` adds). -/
def traceLine (eip code : Nat) : String :=
  "EIP = " ++ Nat.repr eip ++ ", Code = 0x" ++ hexPad 2 code ++ "\n\n"

/-- The trace line as §6 of the specification describes it: the current
EIP rendered as 8 hexadecimal digits and the opcode byte as 2
hexadecimal digits, on one line.  This definition follows the wording
of the specification, for comparison with `traceLine` above. -/
def specTraceLine (eip code : Nat) : String :=
  "EIP = " ++ hexPad 8 eip ++ ", Code = " ++ hexPad 2 code ++ "\n"

/-- One iteration of the main loop (src/main.rs lines 34-51): the
returned triple is (trace messages, diagnostic messages, next state);
`none` means the loop stops (end of program, unknown opcode, a panic,
or EIP out of range). -/
def mainStep (quiet : Bool) (e : Emulator) :
    List String × List String × Option Emulator :=
  if e.eip < MEMORY_SIZE then
    match e.get_code8 0 with
    | none => ([], [], none)
    | some code =>
      let trace := if quiet then [] else [traceLine e.eip code]
      match instructionTable code with
      | some instruction =>
        match e.execute_instruction instruction with
        | none => (trace, [], none)
        | some e1 =>
          if e1.eip = 0 then (trace, ["end of program.\n\n"], none)
          else (trace, [], some e1)
      | none => (trace, ["Not Implemented: 0x" ++ hexPad 2 code ++ "\n"], none)
  else ([], [], none)

/-! Concrete machine states used to evaluate the model. -/

def zeroRegs : Fin 8 → Nat := fun _ => 0

def zeroMem : Nat → Nat := fun _ => 0

/-- A machine as `main` builds it: 1 MiB of memory, empty streams. -/
def mkEmu (regs : Fin 8 → Nat) (mem : Nat → Nat) (eip : Nat) : Emulator :=
  { registers := regs, eflags := 0, memory := mem, memSize := MEMORY_SIZE,
    eip := eip, input := [], output := [] }

def eZero : Emulator := mkEmu zeroRegs zeroMem 0

/-- LEAVE scenario: EBP = 0x100, ESP = 0x200, 0xDEADBEEF stored at the
old ESP and 0xCAFEBABE at the old EBP, opcode 0xC9 at EIP. -/
def memLeave : Nat → Nat := fun a =>
  if a = 0x7c00 then 0xC9
  else if a = 0x200 then 0xEF else if a = 0x201 then 0xBE
  else if a = 0x202 then 0xAD else if a = 0x203 then 0xDE
  else if a = 0x100 then 0xBE else if a = 0x101 then 0xBA
  else if a = 0x102 then 0xFE else if a = 0x103 then 0xCA
  else 0

def regsLeave : Fin 8 → Nat := fun i =>
  if i = 4 then 0x200 else if i = 5 then 0x100 else 0

def eLeave : Emulator := mkEmu regsLeave memLeave 0x7c00

/-- ADD EAX, ECX (opcode 0x01, ModR/M 0xC8) with EAX = 0xFFFFFFFF and
ECX = 1. -/
def memAddOvf : Nat → Nat := fun a =>
  if a = 0x7c00 then 0x01 else if a = 0x7c01 then 0xC8 else 0

def regsOvf : Fin 8 → Nat := fun i =>
  if i = 0 then 0xFFFFFFFF else if i = 1 then 1 else 0

def eAddOvf : Emulator := mkEmu regsOvf memAddOvf 0x7c00

/-- INC EAX (opcode 0x40) with EAX = 0xFFFFFFFF. -/
def memInc : Nat → Nat := fun a => if a = 0x7c00 then 0x40 else 0

def eIncOvf : Emulator := mkEmu regsOvf memInc 0x7c00

/-- JZ with displacement -2 (opcode 0x74, byte 0xFE) and ZF set. -/
def memJz : Nat → Nat := fun a =>
  if a = 0x7c00 then 0x74 else if a = 0x7c01 then 0xFE else 0

def eJz : Emulator := { mkEmu zeroRegs memJz 0x7c00 with eflags := ZERO_FLAG }

/-- A state whose ESP is 0. -/
def eEspZero : Emulator := mkEmu zeroRegs zeroMem 0x7c00

def regsEsp16 : Fin 8 → Nat := fun i => if i = 4 then 16 else 0

/-- A state whose ESP is 16. -/
def eEsp16 : Emulator := mkEmu regsEsp16 zeroMem 0x7c00

/-- A ModR/M byte 0x45 (mod = 1, reg = 0, rm = 5) followed by the
displacement byte 0xFE, placed at EIP. -/
def memModrm : Nat → Nat := fun a =>
  if a = 0x7c00 then 0x45 else if a = 0x7c01 then 0xFE else 0

def eModrm : Emulator := mkEmu zeroRegs memModrm 0x7c00

/-- INC EAX (opcode 0x40) with EAX = 0: executes without overflow. -/
def eInc0 : Emulator := mkEmu zeroRegs memInc 0x7c00

/-- The state after executing INC EAX on `eInc0`. -/
def eInc0After : Emulator :=
  { registers := setReg zeroRegs ⟨0, by decide⟩ 1, eflags := 0,
    memory := memInc, memSize := MEMORY_SIZE, eip := 0x7c01,
    input := [], output := [] }

/-! ### Helper lemmas about the flag accessors -/

theorem is_carry_testBit (e : Emulator) : e.is_carry = e.eflags.testBit 0 := by
  have h : e.eflags &&& CARRY_FLAG = (e.eflags.testBit 0).toNat * 2 ^ 0 :=
    Nat.and_two_pow e.eflags 0
  unfold Emulator.is_carry
  rw [h]
  cases e.eflags.testBit 0 <;> simp

theorem is_zero_testBit (e : Emulator) : e.is_zero = e.eflags.testBit 1 := by
  have h : e.eflags &&& ZERO_FLAG = (e.eflags.testBit 1).toNat * 2 ^ 1 :=
    Nat.and_two_pow e.eflags 1
  unfold Emulator.is_zero
  rw [h]
  cases e.eflags.testBit 1 <;> simp

theorem is_sign_testBit (e : Emulator) : e.is_sign = e.eflags.testBit 2 := by
  have h : e.eflags &&& SIGN_FLAG = (e.eflags.testBit 2).toNat * 2 ^ 2 :=
    Nat.and_two_pow e.eflags 2
  unfold Emulator.is_sign
  rw [h]
  cases e.eflags.testBit 2 <;> simp

theorem is_overflow_testBit (e : Emulator) : e.is_overflow = e.eflags.testBit 3 := by
  have h : e.eflags &&& OVERFLOW_FLAG = (e.eflags.testBit 3).toNat * 2 ^ 3 :=
    Nat.and_two_pow e.eflags 3
  unfold Emulator.is_overflow
  rw [h]
  cases e.eflags.testBit 3 <;> simp

/-- The four flag setters in the order `update_eflags_sub` applies them:
each flag lands in its own bit and everything else is untouched. -/
theorem flags_after (e : Emulator) (c1 c2 c3 c4 : Bool) :
    ((((e.set_carry c1).set_zero c2).set_sign c3).set_overflow c4).is_carry = c1 ∧
    ((((e.set_carry c1).set_zero c2).set_sign c3).set_overflow c4).is_zero = c2 ∧
    ((((e.set_carry c1).set_zero c2).set_sign c3).set_overflow c4).is_sign = c3 ∧
    ((((e.set_carry c1).set_zero c2).set_sign c3).set_overflow c4).is_overflow = c4 ∧
    ((((e.set_carry c1).set_zero c2).set_sign c3).set_overflow c4).registers = e.registers ∧
    ((((e.set_carry c1).set_zero c2).set_sign c3).set_overflow c4).memory = e.memory ∧
    ((((e.set_carry c1).set_zero c2).set_sign c3).set_overflow c4).eip = e.eip ∧
    ((((e.set_carry c1).set_zero c2).set_sign c3).set_overflow c4).memSize = e.memSize ∧
    ((((e.set_carry c1).set_zero c2).set_sign c3).set_overflow c4).input = e.input ∧
    ((((e.set_carry c1).set_zero c2).set_sign c3).set_overflow c4).output = e.output := by
  cases c1 <;> cases c2 <;> cases c3 <;> cases c4 <;>
    (simp only [Emulator.set_carry, Emulator.set_zero, Emulator.set_sign,
      Emulator.set_overflow, is_carry_testBit, is_zero_testBit, is_sign_testBit,
      is_overflow_testBit, CARRY_FLAG, ZERO_FLAG, SIGN_FLAG, OVERFLOW_FLAG,
      if_true, if_false, Bool.false_eq_true, ite_true, ite_false,
      Nat.testBit_or, Nat.testBit_and]) <;>
    norm_num [Nat.testBit_to_div_mod]

/-- C2: after `update_eflags_sub` with 64-bit wrapping result
`r = v1 - v2`, CF holds exactly when bit 32 of `r` is set, equivalently
when `v1 < v2`; ZF exactly when the low 32 bits of `r` are zero; SF is
bit 31 of the low 32 bits; OF holds exactly when bit 31 of `v1` differs
from bit 31 of `v2` and from bit 31 of the low 32 bits of `r`.  Every
call site (0x3B, 0x3C, 0x3D, 0x83 /5, 0x83 /7) passes exactly such an
`r`. -/
theorem claim_C2_update_eflags_sub (e : Emulator) (v1 v2 r : Nat)
    (h1 : v1 < U32) (h2 : v2 < U32) (hr : r = (v1 + U64 - v2) % U64) :
    ((e.update_eflags_sub v1 v2 r).is_carry = true ↔ v1 < v2) ∧
    ((e.update_eflags_sub v1 v2 r).is_carry = r.testBit 32) ∧
    ((e.update_eflags_sub v1 v2 r).is_zero = true ↔ r % U32 = 0) ∧
    ((e.update_eflags_sub v1 v2 r).is_sign = (r % U32).testBit 31) ∧
    ((e.update_eflags_sub v1 v2 r).is_overflow = true ↔
      (v1.testBit 31 ≠ v2.testBit 31 ∧ v1.testBit 31 ≠ (r % U32).testBit 31)) := by
  have hEq : e.update_eflags_sub v1 v2 r =
      (((e.set_carry ((r >>> 32) != 0)).set_zero ((r &&& 0xFFFFFFFF) == 0)).set_sign
        ((((r >>> 31) &&& 1)) != 0)).set_overflow
        (((v1 >>> 31) != (v2 >>> 31)) && ((v1 >>> 31) != ((r >>> 31) &&& 1))) := rfl
  obtain ⟨hc, hz, hs, ho, -⟩ :=
    flags_after e ((r >>> 32) != 0) ((r &&& 0xFFFFFFFF) == 0)
      ((((r >>> 31) &&& 1)) != 0)
      (((v1 >>> 31) != (v2 >>> 31)) && ((v1 >>> 31) != ((r >>> 31) &&& 1)))
  rw [hEq, hc, hz, hs, ho]
  simp only [U32, U64] at h1 h2 hr ⊢
  have hsr : ∀ x : Nat, x >>> 31 = x / 2 ^ 31 := fun x => Nat.shiftRight_eq_div_pow x 31
  have hp31 : (2 : Nat) ^ 31 = 2147483648 := by norm_num
  have hp32 : (2 : Nat) ^ 32 = 4294967296 := by norm_num
  have hand : r &&& 0xFFFFFFFF = r % 4294967296 := by
    have h := Nat.and_pow_two_sub_one_eq_mod r 32
    norm_num at h
    exact h
  refine ⟨?_, ?_, ?_, ?_, ?_⟩
  · -- CF is the borrow, equivalently v1 < v2
    rw [Nat.shiftRight_eq_div_pow, hp32]
    simp only [bne_iff_ne, ne_eq]
    omega
  · -- CF is bit 32 of r
    rw [Nat.shiftRight_eq_div_pow, hp32, Nat.testBit_to_div_mod, hp32]
    have h32 : r / 4294967296 = 0 ∨ r / 4294967296 = 4294967295 := by omega
    rcases h32 with h | h <;> rw [h] <;> decide
  · -- ZF is the low 32 bits being zero
    rw [hand]
    simp
  · -- SF is bit 31 of the low 32 bits
    rw [Nat.and_one_is_mod, Nat.shiftRight_eq_div_pow, hp31,
      Nat.testBit_to_div_mod, hp31]
    have hrr : r % 4294967296 / 2147483648 % 2 = r / 2147483648 % 2 := by omega
    rw [hrr]
    have h2c : r / 2147483648 % 2 = 0 ∨ r / 2147483648 % 2 = 1 := by omega
    rcases h2c with h | h <;> rw [h] <;> decide
  · -- OF is the signed-overflow condition for subtraction
    simp only [Bool.and_eq_true, bne_iff_ne, ne_eq, Nat.and_one_is_mod,
      hsr, hp31, Nat.testBit_to_div_mod]
    have hrr : r % 4294967296 / 2147483648 % 2 = r / 2147483648 % 2 := by omega
    rw [hrr]
    have hm1 : v1 / 2147483648 % 2 = v1 / 2147483648 := by omega
    have hm2 : v2 / 2147483648 % 2 = v2 / 2147483648 := by omega
    rw [hm1, hm2]
    have hv1 : v1 / 2147483648 = 0 ∨ v1 / 2147483648 = 1 := by omega
    have hv2 : v2 / 2147483648 = 0 ∨ v2 / 2147483648 = 1 := by omega
    have h2c : r / 2147483648 % 2 = 0 ∨ r / 2147483648 % 2 = 1 := by omega
    rcases hv1 with h | h <;> rw [h] <;> rcases hv2 with h2 | h2 <;> rw [h2] <;>
      rcases h2c with h3 | h3 <;> rw [h3] <;> decide

/-- Witness for C2 at `v1 = 5`, `v2 = 7`,
`r = (5 + 2^64 - 7) % 2^64 = 2^64 - 2`. -/
theorem claim_C2_update_eflags_sub_witness :
    ((5 : Nat) < U32 ∧ (7 : Nat) < U32 ∧
      (18446744073709551614 : Nat) = (5 + U64 - 7) % U64) ∧
    (((eZero.update_eflags_sub 5 7 18446744073709551614).is_carry = true ↔ (5 : Nat) < 7) ∧
    ((eZero.update_eflags_sub 5 7 18446744073709551614).is_carry =
      (18446744073709551614 : Nat).testBit 32) ∧
    ((eZero.update_eflags_sub 5 7 18446744073709551614).is_zero = true ↔
      (18446744073709551614 : Nat) % U32 = 0) ∧
    ((eZero.update_eflags_sub 5 7 18446744073709551614).is_sign =
      ((18446744073709551614 : Nat) % U32).testBit 31) ∧
    ((eZero.update_eflags_sub 5 7 18446744073709551614).is_overflow = true ↔
      ((5 : Nat).testBit 31 ≠ (7 : Nat).testBit 31 ∧
        (5 : Nat).testBit 31 ≠ ((18446744073709551614 : Nat) % U32).testBit 31))) :=
  ⟨⟨by decide, by decide, by decide⟩,
    claim_C2_update_eflags_sub eZero 5 7 18446744073709551614
      (by decide) (by decide) (by decide)⟩

/-! ### Helper lemmas for the partial register writes -/

theorem testBit_mask_ffffff00 (j : Nat) :
    Nat.testBit 0xffffff00 j = (decide (8 ≤ j) && decide (j < 32)) := by
  rw [show (0xffffff00 : Nat) = (2 ^ 24 - 1) <<< 8 by decide, Nat.testBit_shiftLeft,
    Nat.testBit_two_pow_sub_one]
  by_cases h8 : 8 ≤ j
  · simp only [ge_iff_le, h8, decide_True, Bool.true_and]
    apply decide_eq_decide.mpr
    omega
  · simp [h8]

theorem testBit_mask_ffff00ff (j : Nat) :
    Nat.testBit 0xffff00ff j =
      (decide (j < 8) || (decide (16 ≤ j) && decide (j < 32))) := by
  rw [show (0xffff00ff : Nat) = ((2 ^ 16 - 1) <<< 16) ||| (2 ^ 8 - 1) by decide,
    Nat.testBit_or, Nat.testBit_shiftLeft, Nat.testBit_two_pow_sub_one,
    Nat.testBit_two_pow_sub_one]
  by_cases h16 : 16 ≤ j
  · have hj8 : ¬ (j < 8) := by omega
    simp only [ge_iff_le, h16, decide_True, Bool.true_and, hj8, decide_False,
      Bool.false_or, Bool.or_false]
    apply decide_eq_decide.mpr
    omega
  · simp only [ge_iff_le, h16, decide_False, Bool.false_and, Bool.false_or,
      Bool.or_false]

/-- Bit effect of the low-byte write pattern `(x & 0xffffff00) | b`. -/
theorem low_byte_bits (x b : Nat) (hb : b < 256) :
    (∀ i, i < 8 → ((x &&& 0xffffff00) ||| b).testBit i = b.testBit i) ∧
    (∀ i, 8 ≤ i → i < 32 → ((x &&& 0xffffff00) ||| b).testBit i = x.testBit i) := by
  constructor
  · intro i hi
    simp [Nat.testBit_or, Nat.testBit_and, testBit_mask_ffffff00,
      show ¬ (8 ≤ i) by omega]
  · intro i h8 h32
    have h28 : (256 : Nat) ≤ 2 ^ i := by
      calc (256 : Nat) = 2 ^ 8 := by norm_num
      _ ≤ 2 ^ i := Nat.pow_le_pow_right (by norm_num) h8
    have hbi : b.testBit i = false :=
      Nat.testBit_lt_two_pow (Nat.lt_of_lt_of_le hb h28)
    simp [Nat.testBit_or, Nat.testBit_and, testBit_mask_ffffff00, hbi, h8, h32]

/-- Bit effect of the high-byte write pattern `(x & 0xffff00ff) | (b << 8)`. -/
theorem high_byte_bits (x b : Nat) (hb : b < 256) :
    (∀ i, i < 8 → ((x &&& 0xffff00ff) ||| (b <<< 8)).testBit i = x.testBit i) ∧
    (∀ i, 8 ≤ i → i < 16 →
      ((x &&& 0xffff00ff) ||| (b <<< 8)).testBit i = b.testBit (i - 8)) ∧
    (∀ i, 16 ≤ i → i < 32 →
      ((x &&& 0xffff00ff) ||| (b <<< 8)).testBit i = x.testBit i) := by
  refine ⟨?_, ?_, ?_⟩
  · intro i hi
    simp [Nat.testBit_or, Nat.testBit_and, Nat.testBit_shiftLeft,
      testBit_mask_ffff00ff, hi, show ¬ (8 ≤ i) by omega, show ¬ (16 ≤ i) by omega]
  · intro i h8 h16
    simp [Nat.testBit_or, Nat.testBit_and, Nat.testBit_shiftLeft,
      testBit_mask_ffff00ff, h8, show ¬ (i < 8) by omega, show ¬ (16 ≤ i) by omega]
  · intro i h16 h32
    have h28 : (256 : Nat) ≤ 2 ^ (i - 8) := by
      calc (256 : Nat) = 2 ^ 8 := by norm_num
      _ ≤ 2 ^ (i - 8) := Nat.pow_le_pow_right (by norm_num) (by omega)
    have hbi : b.testBit (i - 8) = false :=
      Nat.testBit_lt_two_pow (Nat.lt_of_lt_of_le hb h28)
    simp [Nat.testBit_or, Nat.testBit_and, Nat.testBit_shiftLeft,
      testBit_mask_ffff00ff, hbi, h16, h32, show ¬ (i < 8) by omega,
      show 8 ≤ i by omega]

/-- C6: writing a byte to AL/CL/DL/BL sets bits 0..7 of the enclosing
32-bit register to the byte and leaves bits 8..31 unchanged; writing to
AH/CH/DH/BH sets bits 8..15 to the byte and leaves bits 0..7 and 16..31
unchanged; no other register, nor the flags, memory or EIP, changes. -/
theorem claim_C6_set_register8 (e : Emulator) (r : Register8) (b : Nat)
    (hb : b < 256) :
    ((e.set_register8 r b).eflags = e.eflags) ∧
    ((e.set_register8 r b).eip = e.eip) ∧
    ((e.set_register8 r b).memory = e.memory) ∧
    (∀ j : Fin 8, j ≠ r.encIdx → (e.set_register8 r b).registers j = e.registers j) ∧
    (r.isHigh = false →
      (∀ i, i < 8 →
        ((e.set_register8 r b).registers r.encIdx).testBit i = b.testBit i) ∧
      (∀ i, 8 ≤ i → i < 32 →
        ((e.set_register8 r b).registers r.encIdx).testBit i =
          (e.registers r.encIdx).testBit i)) ∧
    (r.isHigh = true →
      (∀ i, i < 8 →
        ((e.set_register8 r b).registers r.encIdx).testBit i =
          (e.registers r.encIdx).testBit i) ∧
      (∀ i, 8 ≤ i → i < 16 →
        ((e.set_register8 r b).registers r.encIdx).testBit i = b.testBit (i - 8)) ∧
      (∀ i, 16 ≤ i → i < 32 →
        ((e.set_register8 r b).registers r.encIdx).testBit i =
          (e.registers r.encIdx).testBit i)) := by
  cases r <;>
    refine ⟨rfl, rfl, rfl, fun j hj => ?_, fun hl => ?_, fun hh => ?_⟩ <;>
    first
    | (simp only [Emulator.set_register8, Register8.encIdx, setReg] at hj ⊢;
       rw [if_neg hj])
    | exact absurd hl (by decide)
    | exact absurd hh (by decide)
    | (simpa [Emulator.set_register8, Register8.encIdx, setReg] using
        low_byte_bits (e.registers _) b hb)
    | (simpa [Emulator.set_register8, Register8.encIdx, setReg] using
        high_byte_bits (e.registers _) b hb)

/-- Witness for C6 at register AH with byte 0xAB. -/
theorem claim_C6_set_register8_witness :
    ((0xAB : Nat) < 256) ∧
    (((eZero.set_register8 .Ah 0xAB).eflags = eZero.eflags) ∧
    ((eZero.set_register8 .Ah 0xAB).eip = eZero.eip) ∧
    ((eZero.set_register8 .Ah 0xAB).memory = eZero.memory) ∧
    (∀ j : Fin 8, j ≠ Register8.encIdx .Ah →
      (eZero.set_register8 .Ah 0xAB).registers j = eZero.registers j) ∧
    (Register8.isHigh .Ah = false →
      (∀ i, i < 8 →
        ((eZero.set_register8 .Ah 0xAB).registers (Register8.encIdx .Ah)).testBit i =
          (0xAB : Nat).testBit i) ∧
      (∀ i, 8 ≤ i → i < 32 →
        ((eZero.set_register8 .Ah 0xAB).registers (Register8.encIdx .Ah)).testBit i =
          (eZero.registers (Register8.encIdx .Ah)).testBit i)) ∧
    (Register8.isHigh .Ah = true →
      (∀ i, i < 8 →
        ((eZero.set_register8 .Ah 0xAB).registers (Register8.encIdx .Ah)).testBit i =
          (eZero.registers (Register8.encIdx .Ah)).testBit i) ∧
      (∀ i, 8 ≤ i → i < 16 →
        ((eZero.set_register8 .Ah 0xAB).registers (Register8.encIdx .Ah)).testBit i =
          (0xAB : Nat).testBit (i - 8)) ∧
      (∀ i, 16 ≤ i → i < 32 →
        ((eZero.set_register8 .Ah 0xAB).registers (Register8.encIdx .Ah)).testBit i =
          (eZero.registers (Register8.encIdx .Ah)).testBit i))) :=
  ⟨by decide, claim_C6_set_register8 eZero .Ah 0xAB (by decide)⟩

/-- C1 (evaluation of the code at the failing input): on `eLeave`
(EBP = 0x100, ESP = 0x200, mem32[0x200] = 0xDEADBEEF,
mem32[0x100] = 0xCAFEBABE, opcode 0xC9), the implemented LEAVE pops at
the OLD ESP before overwriting it: the final EBP is 0xDEADBEEF (the
word at the old ESP) and the final ESP is 0x100 (the old EBP), whereas
the claim requires EBP = mem32[old EBP] = 0xCAFEBABE and
ESP = old EBP + 4 = 0x104. -/
theorem claim_C1_leave_pops_at_old_esp :
    (eLeave.execute_instruction .Leave).map
      (fun e => (e.registers 5, e.registers 4, e.eip)) =
      some (0xDEADBEEF, 0x100, 0x7c01) ∧
    eLeave.get_memory32 0x100 = some 0xCAFEBABE ∧
    eLeave.get_memory32 0x200 = some 0xDEADBEEF ∧
    (0xDEADBEEF : Nat) ≠ 0xCAFEBABE :=
  ⟨rfl, rfl, rfl, by decide⟩

/-- C3 (evaluation of the code at the failing inputs): ADD r/m32, r32
with rm32 = 0xFFFFFFFF and r32 = 1 (state `eAddOvf`: ADD EAX, ECX) and
INC r32 with register value 0xFFFFFFFF (state `eIncOvf`: INC EAX) both
abort on the unchecked `u32` addition instead of storing the wrapped
result: the model yields `none` (a debug-profile panic). -/
theorem claim_C3_add_inc_unchecked :
    eAddOvf.execute_instruction .AddRm32R32 = none ∧
    eIncOvf.execute_instruction .IncR32 = none :=
  ⟨rfl, rfl⟩

/-- C4 (evaluation of the code at the failing input): JZ with ZF set
and displacement byte 0xFE (d = -2, state `eJz`) aborts on the
unchecked `diff as u32 + 2` addition instead of setting
EIP := EIP + (-2) + 2: the model yields `none` (a debug-profile
panic). -/
theorem claim_C4_conditional_jump_unchecked :
    eJz.is_zero = true ∧ eJz.execute_instruction .Jz = none :=
  ⟨rfl, rfl⟩

/-! ### Helper lemmas for little-endian byte assembly -/

theorem leBytes_recompose (b0 b1 b2 b3 : Nat) (h0 : b0 < 256) (h1 : b1 < 256)
    (h2 : b2 < 256) :
    b0 ||| (b1 <<< 8) ||| (b2 <<< 16) ||| (b3 <<< 24) =
      b0 + b1 * 256 + b2 * 65536 + b3 * 16777216 := by
  have e1 : b1 <<< 8 = 2 ^ 8 * b1 := by rw [Nat.shiftLeft_eq]; ring
  have e2 : b2 <<< 16 = 2 ^ 16 * b2 := by rw [Nat.shiftLeft_eq]; ring
  have e3 : b3 <<< 24 = 2 ^ 24 * b3 := by rw [Nat.shiftLeft_eq]; ring
  have h0p : b0 < 2 ^ 8 := by omega
  rw [e1, e2, e3, Nat.or_comm b0, ← Nat.mul_add_lt_is_or h0p b1]
  have hq : 2 ^ 8 * b1 + b0 < 2 ^ 16 := by omega
  rw [Nat.or_comm _ (2 ^ 16 * b2), ← Nat.mul_add_lt_is_or hq b2]
  have hr : 2 ^ 16 * b2 + (2 ^ 8 * b1 + b0) < 2 ^ 24 := by omega
  rw [Nat.or_comm _ (2 ^ 24 * b3), ← Nat.mul_add_lt_is_or hr b3]
  ring

/-- The four bytes `push32` stores reassemble to the pushed value. -/
theorem push_bytes_recompose (v : Nat) (hv : v < U32) :
    ((v &&& 255) % 256) ||| (((v >>> 8) &&& 255) % 256) <<< 8 |||
      (((v >>> 16) &&& 255) % 256) <<< 16 ||| (((v >>> 24) &&& 255) % 256) <<< 24 = v := by
  rw [show (255 : Nat) = 2 ^ 8 - 1 by norm_num]
  simp only [Nat.and_pow_two_sub_one_eq_mod, Nat.shiftRight_eq_div_pow]
  simp only [show (2 : Nat) ^ 8 = 256 by norm_num, show (2 : Nat) ^ 16 = 65536 by norm_num,
    show (2 : Nat) ^ 24 = 16777216 by norm_num, Nat.mod_mod]
  rw [leBytes_recompose (v % 256) (v / 256 % 256) (v / 65536 % 256) (v / 16777216 % 256)
    (by omega) (by omega) (by omega)]
  simp only [U32] at hv
  omega

theorem byte_extract_eq (v k : Nat) : (v >>> k &&& 255) % 256 = v / 2 ^ k % 256 := by
  rw [show (255 : Nat) = 2 ^ 8 - 1 by norm_num]
  simp only [Nat.and_pow_two_sub_one_eq_mod, Nat.shiftRight_eq_div_pow]
  simp only [show (2 : Nat) ^ 8 = 256 by norm_num, Nat.mod_mod]

theorem byte_extract0_eq (v : Nat) : (v &&& 255) % 256 = v % 256 := by
  rw [show (255 : Nat) = 2 ^ 8 - 1 by norm_num]
  simp only [Nat.and_pow_two_sub_one_eq_mod]
  simp only [show (2 : Nat) ^ 8 = 256 by norm_num, Nat.mod_mod]

/-- C5 (counterexample): for starting ESP = 0 the claim fails — the
unchecked `ESP - 4` in `push32` underflows (a program error), so the
push32/pop32 sequence aborts instead of returning the pushed value. -/
theorem claim_C5_counterexample :
    eEspZero.registers 4 = 0 ∧
    (eEspZero.push32 0x12345678).bind (fun e1 => e1.pop32) = none :=
  ⟨rfl, rfl⟩

set_option maxHeartbeats 1600000 in
/-- C5 (amended): for every 32-bit value `v` and every starting ESP
with 4 ≤ ESP ≤ memSize (and ESP < 2^32), push32(v) decrements ESP by 4
before storing the four little-endian bytes of `v` at the new ESP, and
the following pop32() reads those bytes back at ESP, returns `v`, and
restores ESP to its starting value.  The amendment restricts the
claim's arbitrary starting ESP to the in-bounds ones: at ESP < 4 the
unchecked `ESP - 4` aborts, and beyond memSize the store is out of
bounds. -/
theorem claim_C5_push_pop_roundtrip (e : Emulator) (v esp : Nat)
    (hesp : e.registers 4 = esp) (h4 : 4 ≤ esp) (hm : esp ≤ e.memSize)
    (hlt : esp < U32) (hv : v < U32) :
    (e.push32 v).map (fun e1 => e1.registers 4) = some (esp - 4) ∧
    (∀ i, i < 4 → (e.push32 v).map (fun e1 => e1.memory (esp - 4 + i)) =
      some (v / 2 ^ (8 * i) % 256)) ∧
    ((e.push32 v).bind (fun e1 => e1.pop32)).map
      (fun p => (p.1, p.2.registers 4)) = some (v, esp) := by
  subst hesp
  have hb : (⟨4, by decide⟩ : Fin 8) = (4 : Fin 8) := rfl
  have hm0 : e.registers 4 - 4 < e.memSize := by omega
  have hm1 : e.registers 4 - 4 + 1 < e.memSize := by omega
  have hm2 : e.registers 4 - 4 + 2 < e.memSize := by omega
  have hm3 : e.registers 4 - 4 + 3 < e.memSize := by omega
  have hu1 : e.registers 4 - 4 + 1 < U32 := by omega
  have hu2 : e.registers 4 - 4 + 2 < U32 := by omega
  have hu3 : e.registers 4 - 4 + 3 < U32 := by omega
  have hu4 : e.registers 4 - 4 + 4 < U32 := by omega
  have hespr : e.registers 4 - 4 + 4 = e.registers 4 := by omega
  refine ⟨?_, ?_, ?_⟩
  · simp [Emulator.push32, Emulator.get_register32, Emulator.set_register32,
      Emulator.set_memory32, Emulator.set_memory8, checkedSub, checkedAdd32, setReg,
      hb, h4, hm0, hm1, hm2, hm3, hu1, hu2, hu3]
  · intro i hi
    interval_cases i <;>
      simp [Emulator.push32, Emulator.get_register32, Emulator.set_register32,
        Emulator.set_memory32, Emulator.set_memory8, checkedSub, checkedAdd32, setReg,
        hb, h4, hm0, hm1, hm2, hm3, hu1, hu2, hu3, byte_extract_eq, byte_extract0_eq] <;>
      simp [Nat.shiftRight_eq_div_pow]
  · simp [Emulator.push32, Emulator.pop32, Emulator.get_register32,
      Emulator.set_register32, Emulator.set_memory32, Emulator.set_memory8,
      Emulator.get_memory32, Emulator.get_memory8, checkedSub, checkedAdd32, setReg,
      hb, h4, hlt, hm0, hm1, hm2, hm3, hu1, hu2, hu3, hu4, hespr,
      push_bytes_recompose v hv]

/-- Witness for C5 (amended) at ESP = 16 with v = 0xDEADBEEF. -/
theorem claim_C5_push_pop_roundtrip_witness :
    (eEsp16.registers 4 = 16 ∧ (4 : Nat) ≤ 16 ∧ 16 ≤ eEsp16.memSize ∧
      (16 : Nat) < U32 ∧ (0xDEADBEEF : Nat) < U32) ∧
    ((eEsp16.push32 0xDEADBEEF).map (fun e1 => e1.registers 4) = some (16 - 4) ∧
    (∀ i, i < 4 → (eEsp16.push32 0xDEADBEEF).map (fun e1 => e1.memory (16 - 4 + i)) =
      some (0xDEADBEEF / 2 ^ (8 * i) % 256)) ∧
    ((eEsp16.push32 0xDEADBEEF).bind (fun e1 => e1.pop32)).map
      (fun p => (p.1, p.2.registers 4)) = some (0xDEADBEEF, 16)) :=
  ⟨⟨rfl, by decide, by decide, by decide, by decide⟩,
    claim_C5_push_pop_roundtrip eEsp16 0xDEADBEEF 16 rfl (by decide) (by decide)
      (by decide) (by decide)⟩

/-! ### Inversion lemmas for the fallible primitives -/

theorem ite_some_none_inv {α : Type} {c : Prop} [Decidable c] {a b : α}
    (h : (if c then some a else none) = some b) : c ∧ b = a := by
  split at h <;> simp_all

theorem checkedAdd32_some {a b c : Nat} (h : checkedAdd32 a b = some c) :
    c = a + b ∧ a + b < U32 := by
  unfold checkedAdd32 at h
  split at h <;> simp_all

theorem checkedSub_some {a b c : Nat} (h : checkedSub a b = some c) :
    c = a - b ∧ b ≤ a := by
  unfold checkedSub at h
  split at h <;> simp_all

theorem get_code8_some {e : Emulator} {i c : Nat} (h : e.get_code8 i = some c) :
    c = e.memory (e.eip + i) % 256 ∧ e.eip + i < e.memSize ∧ c < 256 := by
  unfold Emulator.get_code8 at h
  obtain ⟨hc, he⟩ := ite_some_none_inv h
  exact ⟨he, hc, he ▸ Nat.mod_lt _ (by norm_num)⟩

theorem addEip_some {e e1 : Emulator} {n : Nat} (h : e.addEip n = some e1) :
    e1 = { e with eip := e.eip + n } ∧ e.eip + n < U32 := by
  unfold Emulator.addEip at h
  rw [Option.map_eq_some'] at h
  obtain ⟨a, ha, he⟩ := h
  obtain ⟨rfl, hlt⟩ := checkedAdd32_some ha
  exact ⟨he.symm, hlt⟩

theorem get_sign_code8_some {e : Emulator} {i : Nat} {d : Int}
    (h : e.get_sign_code8 i = some d) :
    d = u8AsI8 (e.memory (e.eip + i) % 256) := by
  unfold Emulator.get_sign_code8 at h
  rw [Option.map_eq_some'] at h
  obtain ⟨c, hc, hd⟩ := h
  obtain ⟨rfl, -, -⟩ := get_code8_some hc
  exact hd.symm

theorem get_code32_some {e : Emulator} {i v : Nat} (h : e.get_code32 i = some v) :
    v = e.memory (e.eip + i) % 256 + e.memory (e.eip + (i + 1)) % 256 * 256 +
      e.memory (e.eip + (i + 2)) % 256 * 65536 +
      e.memory (e.eip + (i + 3)) % 256 * 16777216 := by
  unfold Emulator.get_code32 at h
  simp only [bind, Option.bind_eq_some] at h
  obtain ⟨b0, h0, b1, h1, b2, h2, b3, h3, hv⟩ := h
  obtain ⟨rfl, -, hb0⟩ := get_code8_some h0
  obtain ⟨rfl, -, hb1⟩ := get_code8_some h1
  obtain ⟨rfl, -, hb2⟩ := get_code8_some h2
  obtain ⟨rfl, -, hb3⟩ := get_code8_some h3
  simp only [pure, Option.some_inj] at hv
  rw [← hv, leBytes_recompose _ _ _ _ hb0 hb1 hb2]

theorem get_sign_code32_some {e : Emulator} {i : Nat} {d : Int}
    (h : e.get_sign_code32 i = some d) :
    d = u32AsI32 (e.memory (e.eip + i) % 256 + e.memory (e.eip + (i + 1)) % 256 * 256 +
      e.memory (e.eip + (i + 2)) % 256 * 65536 +
      e.memory (e.eip + (i + 3)) % 256 * 16777216) := by
  unfold Emulator.get_sign_code32 at h
  rw [Option.map_eq_some'] at h
  obtain ⟨v, hv, hd⟩ := h
  rw [← hd, get_code32_some hv]

/-! ### Bit-field extraction lemmas for the ModR/M byte -/

theorem and_shiftLeft_shiftRight (x m k : Nat) :
    (x &&& (m <<< k)) >>> k = (x >>> k) &&& m := by
  apply Nat.eq_of_testBit_eq
  intro j
  simp only [Nat.testBit_shiftRight, Nat.testBit_and, Nat.testBit_shiftLeft, ge_iff_le]
  have h1 : k ≤ k + j := by omega
  have h2 : k + j - k = j := by omega
  simp [h1, h2]

theorem field_mod_eq {code : Nat} (hc : code < 256) :
    (code &&& 0xC0) >>> 6 = code / 64 := by
  rw [show (0xC0 : Nat) = 3 <<< 6 by decide, and_shiftLeft_shiftRight,
    Nat.shiftRight_eq_div_pow, show (3 : Nat) = 2 ^ 2 - 1 by norm_num,
    Nat.and_pow_two_sub_one_eq_mod]
  rw [show (2 : Nat) ^ 6 = 64 by norm_num]
  omega

theorem field_reg_eq (code : Nat) : (code &&& 0x38) >>> 3 = code / 8 % 8 := by
  rw [show (0x38 : Nat) = 7 <<< 3 by decide, and_shiftLeft_shiftRight,
    Nat.shiftRight_eq_div_pow, show (7 : Nat) = 2 ^ 3 - 1 by norm_num,
    Nat.and_pow_two_sub_one_eq_mod]

theorem field_rm_eq (code : Nat) : code &&& 0x07 = code % 8 := by
  rw [show (0x07 : Nat) = 2 ^ 3 - 1 by norm_num, Nat.and_pow_two_sub_one_eq_mod]

/-- Characterization of a successful ModR/M decode: field split, frame,
EIP advance, and displacement presence and value. -/
theorem parse_modrm_char {e : Emulator} {m : ModRM} {e2 : Emulator}
    (h : e.parse_modrm = some (m, e2)) :
    m.mod_val = (e.memory e.eip % 256) / 64 ∧
    m.opecode = (e.memory e.eip % 256) / 8 % 8 ∧
    m.rm = (e.memory e.eip % 256) % 8 ∧
    (m.disp8.isSome ↔ m.mod_val = 1) ∧
    (m.disp32.isSome ↔ (m.mod_val = 2 ∨ (m.mod_val = 0 ∧ m.rm = 5))) ∧
    e2.registers = e.registers ∧ e2.eflags = e.eflags ∧ e2.memory = e.memory ∧
    e2.memSize = e.memSize ∧ e2.input = e.input ∧ e2.output = e.output ∧
    e2.eip = e.eip + 1 + (if m.mod_val ≠ 3 ∧ m.rm = 4 then 1 else 0) +
      (if m.mod_val = 2 ∨ (m.mod_val = 0 ∧ m.rm = 5) then 4
       else if m.mod_val = 1 then 1 else 0) ∧
    (m.mod_val = 1 →
      m.disp8 = some (u8AsI8
        (e.memory (e.eip + 1 + (if m.rm = 4 then 1 else 0)) % 256))) ∧
    ((m.mod_val = 2 ∨ (m.mod_val = 0 ∧ m.rm = 5)) →
      m.disp32 = some (u32AsI32
        (e.memory (e.eip + 1 + (if m.rm = 4 then 1 else 0)) % 256 +
         e.memory (e.eip + 1 + (if m.rm = 4 then 1 else 0) + 1) % 256 * 256 +
         e.memory (e.eip + 1 + (if m.rm = 4 then 1 else 0) + 2) % 256 * 65536 +
         e.memory (e.eip + 1 + (if m.rm = 4 then 1 else 0) + 3) % 256 * 16777216))) := by
  unfold Emulator.parse_modrm at h
  simp only [bind, Option.bind_eq_some] at h
  obtain ⟨code, hcode, e1, he1, h⟩ := h
  obtain ⟨hcodeval, hbound, hcodelt⟩ := get_code8_some hcode
  rw [Nat.add_zero] at hcodeval
  subst hcodeval
  obtain ⟨he1eq, he1lt⟩ := addEip_some he1
  subst he1eq
  rw [field_mod_eq hcodelt, field_reg_eq, field_rm_eq] at h
  by_cases hs : (e.memory e.eip % 256) / 64 ≠ 3 ∧ (e.memory e.eip % 256) % 8 = 4
  · rw [if_pos hs] at h
    simp only [bind, Option.bind_eq_some, Option.pure_def, Option.some_inj] at h
    obtain ⟨s, hs8, e1b, he1b, p, hp, h⟩ := h
    obtain ⟨he1beq, -⟩ := addEip_some he1b
    subst he1beq
    subst hp
    dsimp only at h
    split at h
    case _ heq =>
      -- mod = 0 with rm = 4: no displacement
      rw [hs.2] at h
      norm_num at h
      obtain ⟨hm, he2⟩ := h
      subst hm
      subst he2
      simp [heq, hs.2]
    case _ heq =>
      -- mod = 1 with SIB: disp8 read at eip + 2
      simp only [Option.bind_eq_some, Option.some_bind, Option.some_inj] at h
      obtain ⟨d, hd, e3, he3, h⟩ := h
      have hdval := get_sign_code8_some hd
      dsimp only at hdval
      rw [Nat.add_zero] at hdval
      subst hdval
      obtain ⟨he3eq, -⟩ := addEip_some he3
      subst he3eq
      dsimp only at h
      rw [Prod.mk.injEq] at h
      obtain ⟨hm, he2⟩ := h
      subst hm
      subst he2
      simp [heq, hs.2]
    case _ heq =>
      -- mod = 2 with SIB: disp32 read at eip + 2
      simp only [Option.bind_eq_some, Option.some_bind, Option.some_inj] at h
      obtain ⟨d, hd, e3, he3, h⟩ := h
      have hdval := get_sign_code32_some hd
      dsimp only at hdval
      simp only [Nat.add_zero, Nat.zero_add] at hdval
      subst hdval
      obtain ⟨he3eq, -⟩ := addEip_some he3
      subst he3eq
      dsimp only at h
      rw [Prod.mk.injEq] at h
      obtain ⟨hm, he2⟩ := h
      subst hm
      subst he2
      simp [heq, hs.2]
    case _ x h1 h2 h3 =>
      -- mod = 3 is impossible here: the SIB condition required mod <> 3
      have hne0 : (e.memory e.eip % 256) / 64 ≠ 0 := h1
      have hne1 : (e.memory e.eip % 256) / 64 ≠ 1 := h2
      have hne2 : (e.memory e.eip % 256) / 64 ≠ 2 := h3
      have hlt4 : (e.memory e.eip % 256) / 64 < 4 := by omega
      exact absurd (by omega : (e.memory e.eip % 256) / 64 = 3) hs.1
  · rw [if_neg hs] at h
    simp only [bind, Option.bind_eq_some, Option.pure_def, Option.some_bind,
      Option.some_inj] at h
    try dsimp only at h
    split at h
    case _ heq =>
      by_cases hr5 : (e.memory e.eip % 256) % 8 = 5
      · rw [if_pos hr5] at h
        simp only [Option.bind_eq_some, Option.some_bind, Option.some_inj] at h
        obtain ⟨d, hd, e3, he3, h⟩ := h
        have hdval := get_sign_code32_some hd
        dsimp only at hdval
        simp only [Nat.add_zero, Nat.zero_add] at hdval
        subst hdval
        obtain ⟨he3eq, -⟩ := addEip_some he3
        subst he3eq
        dsimp only at h
        rw [Prod.mk.injEq] at h
        obtain ⟨hm, he2⟩ := h
        subst hm
        subst he2
        have hr4 : ¬ (e.memory e.eip % 256) % 8 = 4 := by omega
        simp [heq, hr5, hr4]
      · rw [if_neg hr5] at h
        simp only [Option.some_inj, Prod.mk.injEq] at h
        obtain ⟨hm, he2⟩ := h
        subst hm
        subst he2
        have hr4 : ¬ (e.memory e.eip % 256) % 8 = 4 := by
          intro h4
          exact hs ⟨by omega, h4⟩
        simp [heq, hr5, hr4]
    case _ heq =>
      simp only [Option.bind_eq_some, Option.some_bind, Option.some_inj] at h
      obtain ⟨d, hd, e3, he3, h⟩ := h
      have hdval := get_sign_code8_some hd
      dsimp only at hdval
      rw [Nat.add_zero] at hdval
      subst hdval
      obtain ⟨he3eq, -⟩ := addEip_some he3
      subst he3eq
      dsimp only at h
      rw [Prod.mk.injEq] at h
      obtain ⟨hm, he2⟩ := h
      subst hm
      subst he2
      have hr4 : ¬ (e.memory e.eip % 256) % 8 = 4 := by
        intro h4
        exact hs ⟨by omega, h4⟩
      simp [heq, hr4]
    case _ heq =>
      simp only [Option.bind_eq_some, Option.some_bind, Option.some_inj] at h
      obtain ⟨d, hd, e3, he3, h⟩ := h
      have hdval := get_sign_code32_some hd
      dsimp only at hdval
      simp only [Nat.add_zero, Nat.zero_add] at hdval
      subst hdval
      obtain ⟨he3eq, -⟩ := addEip_some he3
      subst he3eq
      dsimp only at h
      rw [Prod.mk.injEq] at h
      obtain ⟨hm, he2⟩ := h
      subst hm
      subst he2
      have hr4 : ¬ (e.memory e.eip % 256) % 8 = 4 := by
        intro h4
        exact hs ⟨by omega, h4⟩
      simp [heq, hr4]
    case _ x h1 h2 h3 =>
      simp only [Option.some_inj, Prod.mk.injEq] at h
      obtain ⟨hm, he2⟩ := h
      subst hm
      subst he2
      have hne0 : (e.memory e.eip % 256) / 64 ≠ 0 := h1
      have hne1 : (e.memory e.eip % 256) / 64 ≠ 1 := h2
      have hne2 : (e.memory e.eip % 256) / 64 ≠ 2 := h3
      have hlt4 : (e.memory e.eip % 256) / 64 < 4 := by omega
      have h3eq : (e.memory e.eip % 256) / 64 = 3 := by omega
      simp [h3eq]

set_option maxHeartbeats 3000000 in
/-- Within bounds (six bytes of code and no EIP overflow) the ModR/M
decoder always succeeds. -/
theorem parse_modrm_isSome (e : Emulator) (h1 : e.eip + 6 ≤ e.memSize)
    (h2 : e.eip + 6 < U32) : (e.parse_modrm).isSome = true := by
  have hb0 : e.eip < e.memSize := by omega
  have hb1 : e.eip + 1 < e.memSize := by omega
  have hb2 : e.eip + 2 < e.memSize := by omega
  have hb3 : e.eip + 3 < e.memSize := by omega
  have hb4 : e.eip + 4 < e.memSize := by omega
  have hb5 : e.eip + 5 < e.memSize := by omega
  have hu1 : e.eip + 1 < U32 := by omega
  have hu2 : e.eip + 2 < U32 := by omega
  have hu3 : e.eip + 3 < U32 := by omega
  have hu4 : e.eip + 4 < U32 := by omega
  have hu5 : e.eip + 5 < U32 := by omega
  have hu6 : e.eip + 6 < U32 := by omega
  have hlt : e.memory e.eip % 256 < 256 := Nat.mod_lt _ (by norm_num)
  unfold Emulator.parse_modrm
  simp only [Emulator.get_code8, Nat.add_zero, hb0, if_true, ite_true, bind,
    Option.some_bind, Emulator.addEip, checkedAdd32, hu1, Option.map_some]
  rw [field_mod_eq hlt, field_reg_eq, field_rm_eq]
  have hm : (e.memory e.eip % 256) / 64 = 0 ∨ (e.memory e.eip % 256) / 64 = 1 ∨
      (e.memory e.eip % 256) / 64 = 2 ∨ (e.memory e.eip % 256) / 64 = 3 := by omega
  rcases hm with hm | hm | hm | hm <;>
    rw [hm] <;>
    by_cases hr4 : (e.memory e.eip % 256) % 8 = 4 <;>
    by_cases hr5 : (e.memory e.eip % 256) % 8 = 5 <;>
    simp [hr4, hr5, Emulator.addEip, checkedAdd32, Emulator.get_code8,
      Emulator.get_code32, Emulator.get_sign_code8, Emulator.get_sign_code32,
      hb1, hb2, hb3, hb4, hb5, hu1, hu2, hu3, hu4, hu5, hu6, Nat.add_assoc]

/-- C8: within code bounds the ModR/M decoder succeeds, and every
decode splits the byte into mod = bits 7..6, reg = bits 5..3,
rm = bits 2..0, advances EIP by exactly 1, plus 1 for the SIB byte when
mod ≠ 3 and rm = 4, plus 4 bytes of displacement when mod = 2 or
(mod = 0 and rm = 5), 1 byte when mod = 1, 0 otherwise; the captured
displacement is the signed little-endian value of those bytes. -/
theorem claim_C8_parse_modrm (e : Emulator) (h1 : e.eip + 6 ≤ e.memSize)
    (h2 : e.eip + 6 < U32) :
    (e.parse_modrm).isSome = true ∧
    (∀ m e2, e.parse_modrm = some (m, e2) →
      m.mod_val = (e.memory e.eip % 256) / 64 ∧
      m.opecode = (e.memory e.eip % 256) / 8 % 8 ∧
      m.rm = (e.memory e.eip % 256) % 8 ∧
      e2.eip = e.eip + 1 + (if m.mod_val ≠ 3 ∧ m.rm = 4 then 1 else 0) +
        (if m.mod_val = 2 ∨ (m.mod_val = 0 ∧ m.rm = 5) then 4
         else if m.mod_val = 1 then 1 else 0) ∧
      (m.mod_val = 1 →
        m.disp8 = some (u8AsI8
          (e.memory (e.eip + 1 + (if m.rm = 4 then 1 else 0)) % 256))) ∧
      ((m.mod_val = 2 ∨ (m.mod_val = 0 ∧ m.rm = 5)) →
        m.disp32 = some (u32AsI32
          (e.memory (e.eip + 1 + (if m.rm = 4 then 1 else 0)) % 256 +
           e.memory (e.eip + 1 + (if m.rm = 4 then 1 else 0) + 1) % 256 * 256 +
           e.memory (e.eip + 1 + (if m.rm = 4 then 1 else 0) + 2) % 256 * 65536 +
           e.memory (e.eip + 1 + (if m.rm = 4 then 1 else 0) + 3) % 256 * 16777216)))) := by
  refine ⟨parse_modrm_isSome e h1 h2, ?_⟩
  intro m e2 h
  obtain ⟨hmod, hop, hrm, -, -, -, -, -, -, -, -, heip, hd8, hd32⟩ := parse_modrm_char h
  exact ⟨hmod, hop, hrm, heip, hd8, hd32⟩

/-- C10: every ModRM the decoder produces has disp8 exactly when
mod = 1 and disp32 exactly when mod = 2 or (mod = 0 and rm = 5);
consequently for any decoded ModRM with mod ∈ {0,1,2} and rm ≠ 4 the
effective-address computation never fails — its missing-displacement
(and other) error branches are unreachable. -/
theorem claim_C10_decoded_modrm_calc_safe (e : Emulator) (m : ModRM) (e2 : Emulator)
    (h : e.parse_modrm = some (m, e2)) :
    (m.disp8.isSome = true ↔ m.mod_val = 1) ∧
    (m.disp32.isSome = true ↔ (m.mod_val = 2 ∨ (m.mod_val = 0 ∧ m.rm = 5))) ∧
    (∀ e0 : Emulator, m.mod_val ≤ 2 → m.rm ≠ 4 →
      (m.calc_memory_address e0).isSome = true) := by
  obtain ⟨hmod, hop, hrm, hd8, hd32, -, -, -, -, -, -, -, -, -⟩ := parse_modrm_char h
  refine ⟨hd8, hd32, ?_⟩
  intro e0 hm2 hr4
  have hrm8 : m.rm < 8 := by rw [hrm]; omega
  have hm3 : m.mod_val = 0 ∨ m.mod_val = 1 ∨ m.mod_val = 2 := by omega
  unfold ModRM.calc_memory_address
  rcases hm3 with h0 | h0 | h0 <;> rw [h0]
  · -- mod = 0
    by_cases hr5 : m.rm = 5
    · rw [hr5]
      have : m.disp32.isSome = true := hd32.mpr (Or.inr ⟨h0, hr5⟩)
      obtain ⟨d, hd⟩ := Option.isSome_iff_exists.mp this
      simp [hd]
    · have h8 : m.rm = 0 ∨ m.rm = 1 ∨ m.rm = 2 ∨ m.rm = 3 ∨ m.rm = 6 ∨ m.rm = 7 := by
        omega
      rcases h8 with h8 | h8 | h8 | h8 | h8 | h8 <;> rw [h8] <;>
        simp [Emulator.get_register32]
  · -- mod = 1
    rw [if_neg hr4]
    have : m.disp8.isSome = true := hd8.mpr h0
    obtain ⟨d, hd⟩ := Option.isSome_iff_exists.mp this
    simp [hd, Emulator.get_register32, hrm8]
  · -- mod = 2
    rw [if_neg hr4]
    have : m.disp32.isSome = true := hd32.mpr (Or.inl h0)
    obtain ⟨d, hd⟩ := Option.isSome_iff_exists.mp this
    simp [hd, Emulator.get_register32, hrm8]
    exact hr4

/-- Witness for C8 on `eModrm` (ModR/M byte 0x45: mod = 1, reg = 0,
rm = 5, disp8 = 0xFE). -/
theorem claim_C8_parse_modrm_witness :
    (eModrm.eip + 6 ≤ eModrm.memSize ∧ eModrm.eip + 6 < U32) ∧
    ((eModrm.parse_modrm).isSome = true ∧
    (∀ m e2, eModrm.parse_modrm = some (m, e2) →
      m.mod_val = (eModrm.memory eModrm.eip % 256) / 64 ∧
      m.opecode = (eModrm.memory eModrm.eip % 256) / 8 % 8 ∧
      m.rm = (eModrm.memory eModrm.eip % 256) % 8 ∧
      e2.eip = eModrm.eip + 1 + (if m.mod_val ≠ 3 ∧ m.rm = 4 then 1 else 0) +
        (if m.mod_val = 2 ∨ (m.mod_val = 0 ∧ m.rm = 5) then 4
         else if m.mod_val = 1 then 1 else 0) ∧
      (m.mod_val = 1 →
        m.disp8 = some (u8AsI8
          (eModrm.memory (eModrm.eip + 1 + (if m.rm = 4 then 1 else 0)) % 256))) ∧
      ((m.mod_val = 2 ∨ (m.mod_val = 0 ∧ m.rm = 5)) →
        m.disp32 = some (u32AsI32
          (eModrm.memory (eModrm.eip + 1 + (if m.rm = 4 then 1 else 0)) % 256 +
           eModrm.memory (eModrm.eip + 1 + (if m.rm = 4 then 1 else 0) + 1) % 256 * 256 +
           eModrm.memory (eModrm.eip + 1 + (if m.rm = 4 then 1 else 0) + 2) % 256 * 65536 +
           eModrm.memory (eModrm.eip + 1 + (if m.rm = 4 then 1 else 0) + 3) % 256 * 16777216))))) :=
  ⟨⟨by decide, by decide⟩, claim_C8_parse_modrm eModrm (by decide) (by decide)⟩

/-- Witness for C10 on `eModrm`, whose decode yields mod = 1, reg = 0,
rm = 5, disp8 = -2. -/
theorem claim_C10_decoded_modrm_calc_safe_witness :
    (eModrm.parse_modrm =
      some (⟨1, 0, 5, none, some (-2 : Int), none⟩,
        mkEmu zeroRegs memModrm 0x7c02)) ∧
    (((⟨1, 0, 5, none, some (-2 : Int), none⟩ : ModRM).disp8.isSome = true ↔
        (⟨1, 0, 5, none, some (-2 : Int), none⟩ : ModRM).mod_val = 1) ∧
    (((⟨1, 0, 5, none, some (-2 : Int), none⟩ : ModRM).disp32.isSome = true ↔
        ((⟨1, 0, 5, none, some (-2 : Int), none⟩ : ModRM).mod_val = 2 ∨
         ((⟨1, 0, 5, none, some (-2 : Int), none⟩ : ModRM).mod_val = 0 ∧
          (⟨1, 0, 5, none, some (-2 : Int), none⟩ : ModRM).rm = 5)))) ∧
    (∀ e0 : Emulator, (⟨1, 0, 5, none, some (-2 : Int), none⟩ : ModRM).mod_val ≤ 2 →
      (⟨1, 0, 5, none, some (-2 : Int), none⟩ : ModRM).rm ≠ 4 →
      ((⟨1, 0, 5, none, some (-2 : Int), none⟩ : ModRM).calc_memory_address e0).isSome = true)) :=
  ⟨rfl, claim_C10_decoded_modrm_calc_safe eModrm _ _ rfl⟩

/-- C9 (counterexample): the per-step trace message is NOT of the form
`EIP = <8-hex>, Code = <2-hex>`: at EIP = 0x7C00 (31744) with opcode
0x40 the code prints the EIP in decimal, prefixes the code byte with
`0x`, and appends an extra blank line, so the emitted message differs
from the spec-mandated line. -/
theorem claim_C9_counterexample :
    (mainStep false eInc0).1 = [traceLine 31744 0x40] ∧
    traceLine 31744 0x40 = "EIP = 31744, Code = 0x40\n\n" ∧
    specTraceLine 31744 0x40 = "EIP = 00007C00, Code = 40\n" ∧
    traceLine 31744 0x40 ≠ specTraceLine 31744 0x40 :=
  ⟨by decide, by decide, by decide, by decide⟩

/-- C9 (amended): when not quiet, for every fetched instruction the
main loop emits exactly one trace message, of the form
`EIP = <decimal>, Code = 0x<2-hex-uppercase>` followed by a blank line
(and none in quiet mode). -/
theorem claim_C9_trace_line (e : Emulator) (code : Nat)
    (h : e.eip < MEMORY_SIZE) (hc : e.get_code8 0 = some code) :
    (mainStep false e).1 =
      ["EIP = " ++ Nat.repr e.eip ++ ", Code = 0x" ++ hexPad 2 code ++ "\n\n"] ∧
    (mainStep true e).1 = [] := by
  constructor <;>
    (unfold mainStep
     rw [if_pos h, hc]
     cases htab : instructionTable code
     · simp [htab, traceLine]
     · rename_i i
       cases hex : e.execute_instruction i
       · simp [htab, hex, traceLine]
       · rename_i e1
         by_cases hz : e1.eip = 0 <;> simp [htab, hex, hz, traceLine])

/-- Witness for C9 (amended) on `eInc0` (opcode 0x40 at EIP 0x7C00). -/
theorem claim_C9_trace_line_witness :
    (eInc0.eip < MEMORY_SIZE ∧ eInc0.get_code8 0 = some 0x40) ∧
    ((mainStep false eInc0).1 =
      ["EIP = " ++ Nat.repr eInc0.eip ++ ", Code = 0x" ++ hexPad 2 0x40 ++ "\n\n"] ∧
    (mainStep true eInc0).1 = []) :=
  ⟨⟨by decide, rfl⟩, claim_C9_trace_line eInc0 0x40 (by decide) rfl⟩

/-! ### EFLAGS preservation of the state primitives -/

theorem set_register32_eflags {e e1 : Emulator} {i v : Nat}
    (h : e.set_register32 i v = some e1) : e1.eflags = e.eflags := by
  unfold Emulator.set_register32 at h
  split at h
  · injection h with h
    subst h
    rfl
  · exact Option.noConfusion h

theorem set_register8_eflags (e : Emulator) (r : Register8) (v : Nat) :
    (e.set_register8 r v).eflags = e.eflags := by
  cases r <;> rfl

theorem set_memory8_eflags {e e1 : Emulator} {a v : Nat}
    (h : e.set_memory8 a v = some e1) : e1.eflags = e.eflags := by
  unfold Emulator.set_memory8 at h
  split at h
  · injection h with h
    subst h
    rfl
  · exact Option.noConfusion h

theorem set_memory32_eflags {e e1 : Emulator} {a v : Nat}
    (h : e.set_memory32 a v = some e1) : e1.eflags = e.eflags := by
  unfold Emulator.set_memory32 at h
  simp only [bind, Option.bind_eq_some] at h
  obtain ⟨x0, h0, a1, -, x1, h1, a2, -, x2, h2, a3, -, h3⟩ := h
  rw [set_memory8_eflags h3, set_memory8_eflags h2, set_memory8_eflags h1,
    set_memory8_eflags h0]

theorem push32_eflags {e e1 : Emulator} {v : Nat}
    (h : e.push32 v = some e1) : e1.eflags = e.eflags := by
  unfold Emulator.push32 at h
  simp only [bind, Option.bind_eq_some] at h
  obtain ⟨esp, -, a, -, x, hx, h⟩ := h
  rw [set_memory32_eflags h, set_register32_eflags hx]

theorem pop32_eflags {e e1 : Emulator} {v : Nat}
    (h : e.pop32 = some (v, e1)) : e1.eflags = e.eflags := by
  unfold Emulator.pop32 at h
  simp only [bind, Option.bind_eq_some, Option.pure_def, Option.some_inj] at h
  obtain ⟨a, -, r, -, a4, -, x, hx, h⟩ := h
  rw [Prod.mk.injEq] at h
  rw [← h.2, set_register32_eflags hx]

theorem addEip_eflags {e e1 : Emulator} {n : Nat}
    (h : e.addEip n = some e1) : e1.eflags = e.eflags := by
  obtain ⟨he, -⟩ := addEip_some h
  rw [he]

theorem parse_modrm_eflags {e : Emulator} {m : ModRM} {e2 : Emulator}
    (h : e.parse_modrm = some (m, e2)) : e2.eflags = e.eflags :=
  (parse_modrm_char h).2.2.2.2.2.2.1

theorem set_rm32_eflags {m : ModRM} {e e1 : Emulator} {v : Nat}
    (h : m.set_rm32 e v = some e1) : e1.eflags = e.eflags := by
  unfold ModRM.set_rm32 at h
  split at h
  · exact set_register32_eflags h
  · simp only [bind, Option.bind_eq_some] at h
    obtain ⟨a, -, h⟩ := h
    exact set_memory32_eflags h

theorem set_rm8_eflags {m : ModRM} {e e1 : Emulator} {v : Nat}
    (h : m.set_rm8 e v = some e1) : e1.eflags = e.eflags := by
  unfold ModRM.set_rm8 at h
  split at h
  · split at h
    · injection h with h
      subst h
      exact set_register8_eflags ..
    · exact Option.noConfusion h
  · simp only [bind, Option.bind_eq_some] at h
    obtain ⟨a, -, h⟩ := h
    exact set_memory8_eflags h

theorem set_r32_eflags {m : ModRM} {e e1 : Emulator} {v : Nat}
    (h : m.set_r32 e v = some e1) : e1.eflags = e.eflags :=
  set_register32_eflags h

theorem set_r8_eflags {m : ModRM} {e e1 : Emulator} {v : Nat}
    (h : m.set_r8 e v = some e1) : e1.eflags = e.eflags := by
  unfold ModRM.set_r8 at h
  split at h
  · injection h with h
    subst h
    exact set_register8_eflags ..
  · exact Option.noConfusion h

theorem ioIn8_eflags (e : Emulator) (p : Nat) : (ioIn8 e p).2.eflags = e.eflags := by
  unfold ioIn8
  split
  · split <;> rfl
  · rfl

theorem ioOut8_eflags (e : Emulator) (p v : Nat) : (ioOut8 e p v).eflags = e.eflags := by
  unfold ioOut8
  split <;> rfl

theorem putBytes_eflags (l : List Nat) (e : Emulator) :
    (l.foldl (fun acc b => ioOut8 acc 0x03f8 b) e).eflags = e.eflags := by
  induction l generalizing e with
  | nil => rfl
  | cons b rest ih => rw [List.foldl_cons, ih, ioOut8_eflags]

theorem bios_video_eflags (e : Emulator) : e.bios_video.eflags = e.eflags := by
  unfold Emulator.bios_video
  split
  · exact putBytes_eflags _ e
  · rfl

/-! ### EFLAGS preservation of the non-compare instruction handlers -/

theorem mov_r8_imm8_eflags {e e1 : Emulator}
    (h : e.mov_r8_imm8 = some e1) : e1.eflags = e.eflags := by
  unfold Emulator.mov_r8_imm8 at h
  simp only [bind, Option.bind_eq_some, Option.pure_def] at h
  obtain ⟨c, -, i, -, h⟩ := h
  split at h
  · simp only [Option.bind_eq_some] at h
    obtain ⟨v, -, h⟩ := h
    rw [addEip_eflags h, set_register8_eflags]
  · injection h with h
    subst h
    rfl

theorem mov_r32_imm32_eflags {e e1 : Emulator}
    (h : e.mov_r32_imm32 = some e1) : e1.eflags = e.eflags := by
  unfold Emulator.mov_r32_imm32 at h
  simp only [bind, Option.bind_eq_some] at h
  obtain ⟨c, -, r, -, v, -, x, hx, h⟩ := h
  rw [addEip_eflags h, set_register32_eflags hx]

theorem mov_r8_rm8_eflags {e e1 : Emulator}
    (h : e.mov_r8_rm8 = some e1) : e1.eflags = e.eflags := by
  unfold Emulator.mov_r8_rm8 at h
  simp only [bind, Option.bind_eq_some] at h
  obtain ⟨ea, hea, ⟨m, eb⟩, hb, v, -, h⟩ := h
  rw [set_r8_eflags h, parse_modrm_eflags hb, addEip_eflags hea]

theorem mov_r32_rm32_eflags {e e1 : Emulator}
    (h : e.mov_r32_rm32 = some e1) : e1.eflags = e.eflags := by
  unfold Emulator.mov_r32_rm32 at h
  simp only [bind, Option.bind_eq_some] at h
  obtain ⟨ea, hea, ⟨m, eb⟩, hb, v, -, h⟩ := h
  rw [set_r32_eflags h, parse_modrm_eflags hb, addEip_eflags hea]

theorem add_rm32_r32_eflags {e e1 : Emulator}
    (h : e.add_rm32_r32 = some e1) : e1.eflags = e.eflags := by
  unfold Emulator.add_rm32_r32 at h
  simp only [bind, Option.bind_eq_some] at h
  obtain ⟨ea, hea, ⟨m, eb⟩, hb, r, -, v, -, s, -, h⟩ := h
  rw [set_rm32_eflags h, parse_modrm_eflags hb, addEip_eflags hea]

theorem mov_rm8_r8_eflags {e e1 : Emulator}
    (h : e.mov_rm8_r8 = some e1) : e1.eflags = e.eflags := by
  unfold Emulator.mov_rm8_r8 at h
  simp only [bind, Option.bind_eq_some] at h
  obtain ⟨ea, hea, ⟨m, eb⟩, hb, v, -, h⟩ := h
  rw [set_rm8_eflags h, parse_modrm_eflags hb, addEip_eflags hea]

theorem mov_rm32_r32_eflags {e e1 : Emulator}
    (h : e.mov_rm32_r32 = some e1) : e1.eflags = e.eflags := by
  unfold Emulator.mov_rm32_r32 at h
  simp only [bind, Option.bind_eq_some] at h
  obtain ⟨ea, hea, ⟨m, eb⟩, hb, v, -, h⟩ := h
  rw [set_rm32_eflags h, parse_modrm_eflags hb, addEip_eflags hea]

theorem inc_r32_eflags {e e1 : Emulator}
    (h : e.inc_r32 = some e1) : e1.eflags = e.eflags := by
  unfold Emulator.inc_r32 at h
  simp only [bind, Option.bind_eq_some] at h
  obtain ⟨c, -, r, -, o, -, v, -, x, hx, h⟩ := h
  rw [addEip_eflags h, set_register32_eflags hx]

theorem push_r32_eflags {e e1 : Emulator}
    (h : e.push_r32 = some e1) : e1.eflags = e.eflags := by
  unfold Emulator.push_r32 at h
  simp only [bind, Option.bind_eq_some] at h
  obtain ⟨c, -, r, -, v, -, x, hx, h⟩ := h
  rw [addEip_eflags h, push32_eflags hx]

theorem pop_r32_eflags {e e1 : Emulator}
    (h : e.pop_r32 = some e1) : e1.eflags = e.eflags := by
  unfold Emulator.pop_r32 at h
  simp only [bind, Option.bind_eq_some] at h
  obtain ⟨c, -, r, -, ⟨v, ea⟩, ha, x, hx, h⟩ := h
  rw [addEip_eflags h, set_register32_eflags hx, pop32_eflags ha]

theorem push_imm32_eflags {e e1 : Emulator}
    (h : e.push_imm32 = some e1) : e1.eflags = e.eflags := by
  unfold Emulator.push_imm32 at h
  simp only [bind, Option.bind_eq_some] at h
  obtain ⟨v, -, x, hx, h⟩ := h
  rw [addEip_eflags h, push32_eflags hx]

theorem push_imm8_eflags {e e1 : Emulator}
    (h : e.push_imm8 = some e1) : e1.eflags = e.eflags := by
  unfold Emulator.push_imm8 at h
  simp only [bind, Option.bind_eq_some] at h
  obtain ⟨v, -, x, hx, h⟩ := h
  rw [addEip_eflags h, push32_eflags hx]

theorem add_rm32_imm8_eflags {e e1 : Emulator} {m : ModRM}
    (h : e.add_rm32_imm8 m = some e1) : e1.eflags = e.eflags := by
  unfold Emulator.add_rm32_imm8 at h
  simp only [bind, Option.bind_eq_some] at h
  obtain ⟨r, -, d, -, x, hx, h⟩ := h
  rw [set_rm32_eflags h, addEip_eflags hx]

theorem mov_rm32_imm32_eflags {e e1 : Emulator}
    (h : e.mov_rm32_imm32 = some e1) : e1.eflags = e.eflags := by
  unfold Emulator.mov_rm32_imm32 at h
  simp only [bind, Option.bind_eq_some] at h
  obtain ⟨ea, hea, ⟨m, eb⟩, hb, v, -, x, hx, h⟩ := h
  rw [set_rm32_eflags h, addEip_eflags hx, parse_modrm_eflags hb, addEip_eflags hea]

theorem in_al_dx_eflags {e e1 : Emulator}
    (h : e.in_al_dx = some e1) : e1.eflags = e.eflags := by
  unfold Emulator.in_al_dx at h
  simp only [bind, Option.bind_eq_some] at h
  obtain ⟨dx, -, h⟩ := h
  rcases hio : ioIn8 e (dx &&& 0xffff) with ⟨v, ea⟩
  rw [hio] at h
  have hef := ioIn8_eflags e (dx &&& 0xffff)
  rw [hio] at hef
  rw [addEip_eflags h, set_register8_eflags]
  exact hef

theorem out_dx_al_eflags {e e1 : Emulator}
    (h : e.out_dx_al = some e1) : e1.eflags = e.eflags := by
  unfold Emulator.out_dx_al at h
  simp only [bind, Option.bind_eq_some] at h
  obtain ⟨dx, -, h⟩ := h
  rw [addEip_eflags h, ioOut8_eflags]

theorem inc_rm32_eflags {e e1 : Emulator} {m : ModRM}
    (h : e.inc_rm32 m = some e1) : e1.eflags = e.eflags := by
  unfold Emulator.inc_rm32 at h
  simp only [bind, Option.bind_eq_some] at h
  obtain ⟨v, -, h⟩ := h
  exact set_rm32_eflags h

theorem code_ff_eflags {e e1 : Emulator}
    (h : e.code_ff = some e1) : e1.eflags = e.eflags := by
  unfold Emulator.code_ff at h
  simp only [bind, Option.bind_eq_some] at h
  obtain ⟨ea, hea, ⟨m, eb⟩, hb, h⟩ := h
  split at h
  · rw [inc_rm32_eflags h, parse_modrm_eflags hb, addEip_eflags hea]
  · exact Option.noConfusion h

theorem call_rel32_eflags {e e1 : Emulator}
    (h : e.call_rel32 = some e1) : e1.eflags = e.eflags := by
  unfold Emulator.call_rel32 at h
  simp only [bind, Option.bind_eq_some, Option.pure_def, Option.some_inj] at h
  obtain ⟨d, -, r, -, ea, ha, t, -, h⟩ := h
  rw [← h]
  show ea.eflags = e.eflags
  exact push32_eflags ha

theorem ret_eflags {e e1 : Emulator}
    (h : e.ret = some e1) : e1.eflags = e.eflags := by
  unfold Emulator.ret at h
  simp only [bind, Option.bind_eq_some, Option.pure_def, Option.some_inj] at h
  obtain ⟨⟨v, ea⟩, ha, h⟩ := h
  rw [← h]
  show ea.eflags = e.eflags
  exact pop32_eflags ha

theorem leave_eflags {e e1 : Emulator}
    (h : e.leave = some e1) : e1.eflags = e.eflags := by
  unfold Emulator.leave at h
  simp only [bind, Option.bind_eq_some] at h
  obtain ⟨b, -, ⟨v, ea⟩, ha, x, hx, y, hy, h⟩ := h
  rw [addEip_eflags h, set_register32_eflags hy, set_register32_eflags hx,
    pop32_eflags ha]

theorem short_jump_eflags {e e1 : Emulator}
    (h : e.short_jump = some e1) : e1.eflags = e.eflags := by
  unfold Emulator.short_jump at h
  simp only [bind, Option.bind_eq_some, Option.pure_def, Option.some_inj] at h
  obtain ⟨d, -, t, -, h⟩ := h
  rw [← h]

theorem near_jump_eflags {e e1 : Emulator}
    (h : e.near_jump = some e1) : e1.eflags = e.eflags := by
  unfold Emulator.near_jump at h
  simp only [bind, Option.bind_eq_some, Option.pure_def, Option.some_inj] at h
  obtain ⟨d, -, t, -, h⟩ := h
  rw [← h]

theorem conditional_jump_eflags {e e1 : Emulator} {c : Bool}
    (h : e.conditional_jump c = some e1) : e1.eflags = e.eflags := by
  unfold Emulator.conditional_jump at h
  split at h <;>
    simp only [bind, Option.bind_eq_some, Option.some_bind, Option.pure_def,
      Option.some_inj] at h <;>
    first
    | (obtain ⟨d, -, t, -, h⟩ := h
       rw [← h])
    | (obtain ⟨t, -, h⟩ := h
       rw [← h])

theorem jl_eflags {e e1 : Emulator}
    (h : e.jl = some e1) : e1.eflags = e.eflags := by
  unfold Emulator.jl at h
  split at h <;>
    simp only [bind, Option.bind_eq_some, Option.some_bind, Option.pure_def,
      Option.some_inj] at h <;>
    first
    | (obtain ⟨d, -, t, -, h⟩ := h
       rw [← h])
    | (obtain ⟨t, -, h⟩ := h
       rw [← h])

theorem jle_eflags {e e1 : Emulator}
    (h : e.jle = some e1) : e1.eflags = e.eflags := by
  unfold Emulator.jle at h
  split at h <;>
    simp only [bind, Option.bind_eq_some, Option.some_bind, Option.pure_def,
      Option.some_inj] at h <;>
    first
    | (obtain ⟨d, -, t, -, h⟩ := h
       rw [← h])
    | (obtain ⟨t, -, h⟩ := h
       rw [← h])

theorem swi_eflags {e e1 : Emulator}
    (h : e.swi = some e1) : e1.eflags = e.eflags := by
  unfold Emulator.swi at h
  simp only [bind, Option.bind_eq_some, Option.pure_def, Option.some_inj] at h
  obtain ⟨i, -, ea, ha, h⟩ := h
  split at h <;>
    (injection h with h
     subst h)
  · rw [bios_video_eflags, addEip_eflags ha]
  · exact addEip_eflags ha

/-- C7: executing any implemented instruction other than the CMP family
(0x3B, 0x3C, 0x3D, 0x83 /7) and 0x83 /5 SUB leaves every bit of EFLAGS
unchanged; for the 0x83 group this is the /0 ADD sub-opcode (the ModR/M
reg field, bits 5..3 of the byte after the opcode, equal to 0) — the
other surviving sub-opcodes /5 and /7 are exactly the flag writers. -/
theorem claim_C7_eflags_frame (i : Instruction) (e e1 : Emulator)
    (hexec : e.execute_instruction i = some e1)
    (h3b : i ≠ .CmpR32Rm32) (h3c : i ≠ .CmpAlImm8) (h3d : i ≠ .CmpEaxImm32)
    (h83 : i = .Code83 → (e.memory (e.eip + 1) % 256) / 8 % 8 = 0) :
    e1.eflags = e.eflags := by
  cases i <;> simp only [Emulator.execute_instruction] at hexec
  case MovR8Imm8 => exact mov_r8_imm8_eflags hexec
  case MovR32Imm32 => exact mov_r32_imm32_eflags hexec
  case MovR8Rm8 => exact mov_r8_rm8_eflags hexec
  case MovR32Rm32 => exact mov_r32_rm32_eflags hexec
  case AddRm32R32 => exact add_rm32_r32_eflags hexec
  case MovRm8R8 => exact mov_rm8_r8_eflags hexec
  case MovRm32R32 => exact mov_rm32_r32_eflags hexec
  case IncR32 => exact inc_r32_eflags hexec
  case PushR32 => exact push_r32_eflags hexec
  case PopR32 => exact pop_r32_eflags hexec
  case PushImm32 => exact push_imm32_eflags hexec
  case PushImm8 => exact push_imm8_eflags hexec
  case Code83 =>
    have h0 := h83 rfl
    unfold Emulator.code_83 at hexec
    simp only [bind, Option.bind_eq_some] at hexec
    obtain ⟨ea, hea, ⟨m, eb⟩, hb, h⟩ := hexec
    obtain ⟨heaeq, -⟩ := addEip_some hea
    subst heaeq
    have hop : m.opecode = (e.memory (e.eip + 1) % 256) / 8 % 8 :=
      (parse_modrm_char hb).2.1
    rw [h0] at hop
    have hef := parse_modrm_eflags hb
    split at h
    · rw [add_rm32_imm8_eflags h, hef]
    · rw [hop] at *
      omega
    · rw [hop] at *
      omega
    · exact Option.noConfusion h
  case MovRm32Imm32 => exact mov_rm32_imm32_eflags hexec
  case InAlDx => exact in_al_dx_eflags hexec
  case OutDxAl => exact out_dx_al_eflags hexec
  case CodeFf => exact code_ff_eflags hexec
  case CallRel32 => exact call_rel32_eflags hexec
  case Ret => exact ret_eflags hexec
  case Leave => exact leave_eflags hexec
  case ShortJump => exact short_jump_eflags hexec
  case NearJump => exact near_jump_eflags hexec
  case CmpAlImm8 => exact absurd rfl h3c
  case CmpEaxImm32 => exact absurd rfl h3d
  case CmpR32Rm32 => exact absurd rfl h3b
  case Jc => exact conditional_jump_eflags hexec
  case Jnc => exact conditional_jump_eflags hexec
  case Jz => exact conditional_jump_eflags hexec
  case Jnz => exact conditional_jump_eflags hexec
  case Js => exact conditional_jump_eflags hexec
  case Jns => exact conditional_jump_eflags hexec
  case Jo => exact conditional_jump_eflags hexec
  case Jno => exact conditional_jump_eflags hexec
  case Jl => exact jl_eflags hexec
  case Jle => exact jle_eflags hexec
  case Swi => exact swi_eflags hexec

/-- Witness for C7: INC EAX on `eInc0` executes and preserves EFLAGS. -/
theorem claim_C7_eflags_frame_witness :
    (eInc0.execute_instruction .IncR32 = some eInc0After ∧
      Instruction.IncR32 ≠ Instruction.CmpR32Rm32 ∧
      Instruction.IncR32 ≠ Instruction.CmpAlImm8 ∧
      Instruction.IncR32 ≠ Instruction.CmpEaxImm32) ∧
    eInc0After.eflags = eInc0.eflags :=
  ⟨⟨rfl, by decide, by decide, by decide⟩,
    claim_C7_eflags_frame .IncR32 eInc0 eInc0After rfl (by decide) (by decide)
      (by decide) (fun hh => absurd hh (by decide))⟩
